import Mathlib

/-!
# Declaration extraction of `docgen` (kolosys/docs)

A shallow embedding of the extraction pipeline of `src/docgen/main.go`
(`parsePackage` and its helpers `getFunctionSignature`, `getTypeDecl`,
`getTypeKind`, `getTypeFields`, `getTypeUnderlying`, `getValueDecl`) together
with the descriptor records of `src/docgen/types.go`, of `GeneratePackageDocs`,
of the loop of `main` over the configured packages and of the `truncate`
template helper, and of the copy of the extraction code in
`src/shared/scripts/generate-docs.go` (under the prefix `Shared`).

Conventions of the embedding

* Go strings are Lean strings.  The suffix and prefix tests of the Go
  `strings` package compare bytes; every pattern used by the program is ASCII,
  and on well-formed UTF-8 text a byte-wise suffix (prefix) test against a
  well-formed pattern agrees with the character-wise one used here.
* A nil pointer is `none`; a nil or empty slice is `[]`.  The field list of a
  struct, interface or function type, which the parser never leaves nil and
  which the program dereferences without a test, is the list of its entries.
* The syntax tree of `go/ast` is an inductive type that keeps the node shapes
  the program discriminates on, and the documentation index of `go/doc` is a
  record.  Library routines whose code is not part of the repository
  (`format.Node`, `(*ast.CommentGroup).Text`, `os.Stat`, `filepath.Join`,
  `parser.ParseDir`, `doc.New`) are fields of the record `Env`.
* A `for ... range` loop that appends to a slice is a left fold that appends
  to a list.
* Code that acts on the file system passes a state of the file system
  explicitly and returns the Go error (`none` for nil) with the new state.
-/

namespace Docgen

/-! ## Syntax tree (`go/ast`) -/

/-- Identifier node (`ast.Ident`). -/
structure Ident where
  Name : String
  deriving DecidableEq, Repr

/-- Literal node (`ast.BasicLit`); `Value` is the literal text as written in the source. -/
structure BasicLit where
  Kind : String
  Value : String
  deriving DecidableEq, Repr

/-- Single comment (`ast.Comment`); `Text` is the raw comment text with its markers. -/
structure Comment where
  Text : String
  deriving DecidableEq, Repr

/-- Sequence of comments with no other tokens in between (`ast.CommentGroup`). -/
structure CommentGroup where
  List : List Comment
  deriving DecidableEq, Repr

/-- Direction of a channel type (`ast.ChanDir`). -/
inductive ChanDir where
  | send
  | recv
  | both
  deriving DecidableEq, Repr

mutual
/-- Expression and type nodes (`ast.Expr`).  The six composite type shapes that
`getTypeKind` recognises are kept apart; the remaining constructors are the
other expression forms that occur as the right-hand side of a type
specification or as the type of a struct member. -/
inductive Expr where
  | bad : Expr
  | ident : Ident → Expr
  | basicLit : BasicLit → Expr
  | ellipsis : Option Expr → Expr
  | paren : Expr → Expr
  | selector : Expr → Ident → Expr
  | index : Expr → List Expr → Expr
  | star : Expr → Expr
  | arrayType : Option Expr → Expr → Expr
  | structType : List Field → Expr
  | funcType : List Field → List Field → Expr
  | interfaceType : List Field → Expr
  | mapType : Expr → Expr → Expr
  | chanType : ChanDir → Expr → Expr
/-- Member entry of a field list (`ast.Field`): leading doc comment, declared
names (empty for an embedded member), type, tag literal and trailing comment. -/
inductive Field where
  | mk : Option CommentGroup → List Ident → Expr → Option BasicLit → Option CommentGroup → Field
end

/-- Leading doc comment of a member entry (`field.Doc`). -/
def Field.Doc : Field → Option CommentGroup
  | .mk d _ _ _ _ => d

/-- Declared names of a member entry (`field.Names`). -/
def Field.Names : Field → List Ident
  | .mk _ ns _ _ _ => ns

/-- Type expression of a member entry (`field.Type`). -/
def Field.Type_ : Field → Expr
  | .mk _ _ t _ _ => t

/-- Tag literal of a member entry (`field.Tag`). -/
def Field.Tag : Field → Option BasicLit
  | .mk _ _ _ t _ => t

/-- Trailing line comment of a member entry (`field.Comment`). -/
def Field.Comment : Field → Option CommentGroup
  | .mk _ _ _ _ c => c

/-- Value specification (`ast.ValueSpec`): a constant or variable declaration line. -/
structure ValueSpec where
  Names : List Ident
  Type_ : Option Expr
  Values : List Expr

/-- Type specification (`ast.TypeSpec`). -/
structure TypeSpec where
  Name : Ident
  Type_ : Expr

/-- Import specification (`ast.ImportSpec`). -/
structure ImportSpec where
  Path : BasicLit

/-- Specification node (`ast.Spec`): the dynamic type is one of the three below. -/
inductive Spec where
  | importSpec : ImportSpec → Spec
  | valueSpec : ValueSpec → Spec
  | typeSpec : TypeSpec → Spec

/-- Generic declaration node (`ast.GenDecl`); `Tok` is the keyword. -/
structure GenDecl where
  Tok : String
  Specs : List Spec

/-- Function declaration node (`ast.FuncDecl`). -/
structure FuncDecl where
  Recv : List Field
  Name : Ident
  Params : List Field
  Results : List Field

/-- Nodes that the program hands to `format.Node`. -/
inductive Node where
  | funcDecl : FuncDecl → Node
  | genDecl : GenDecl → Node
  | expr : Expr → Node
  | valueSpec : ValueSpec → Node

/-- Parsed package (`ast.Package`): declared package name and its file names. -/
structure AstPackage where
  Name : String
  Files : List String

/-! ## Documentation index (`go/doc`) -/

/-- Function or method entry of the index (`doc.Func`). -/
structure DocFunc where
  Name : String
  Doc : String
  Decl : Option FuncDecl

/-- Constant or variable group of the index (`doc.Value`). -/
structure DocValue where
  Doc : String
  Names : List String
  Decl : GenDecl

/-- Type entry of the index (`doc.Type`).  Besides its methods, `doc.New` files
under a type the constant and variable groups declared with that type
(`Consts`, `Vars`) and the functions that return it (`Funcs`); those
declarations are not in the lists of the package entry. -/
structure DocType where
  Name : String
  Doc : String
  Decl : Option GenDecl
  Methods : List DocFunc
  Consts : List DocValue := []
  Vars : List DocValue := []
  Funcs : List DocFunc := []

/-- Package entry of the index (`doc.Package`): `Funcs`, `Consts` and `Vars`
hold the declarations that `doc.New` did not file under a type. -/
structure DocPackage where
  Name : String
  Doc : String
  Funcs : List DocFunc
  Types : List DocType
  Consts : List DocValue
  Vars : List DocValue

/-! ## Descriptors (`src/docgen/types.go`) -/

/-- Example descriptor (`ExampleDoc`). -/
structure ExampleDoc where
  Name : String := ""
  Code : String := ""
  Doc : String := ""
  deriving DecidableEq, Repr

/-- Function descriptor (`FunctionDoc`). -/
structure FunctionDoc where
  Name : String := ""
  Doc : String := ""
  Signature : String := ""
  Examples : List ExampleDoc := []
  deriving DecidableEq, Repr

/-- Member descriptor (`FieldDoc`). -/
structure FieldDoc where
  Name : String := ""
  Type_ : String := ""
  Tag : String := ""
  Doc : String := ""
  deriving DecidableEq, Repr

/-- Type descriptor (`TypeDoc`). -/
structure TypeDoc where
  Name : String := ""
  Doc : String := ""
  Decl : String := ""
  Kind : String := ""
  Fields : List FieldDoc := []
  Methods : List FunctionDoc := []
  Examples : List ExampleDoc := []
  Underlying : String := ""
  deriving DecidableEq, Repr

/-- Constant or variable descriptor (`ValueDoc`). -/
structure ValueDoc where
  Name : String := ""
  Doc : String := ""
  Decl : String := ""
  deriving DecidableEq, Repr

/-- Package model (`PackageDoc`). -/
structure PackageDoc where
  Name : String := ""
  ImportPath : String := ""
  Doc : String := ""
  Functions : List FunctionDoc := []
  Types : List TypeDoc := []
  Constants : List ValueDoc := []
  Variables : List ValueDoc := []
  Examples : List ExampleDoc := []
  deriving DecidableEq, Repr

/-- Entry of the configured package list (`PackageConfig`). -/
structure PackageConfig where
  Name : String
  Description : String := ""
  Priority : Int := 0
  Path : String := ""

/-- The part of `Config` that the program reads after loading it:
`Repository.ImportPath`, `Docs.RootDir`, `Docs.DocsDir`, `Packages` and
`Output.Verbose`. -/
structure Config where
  ImportPath : String
  RootDir : String
  DocsDir : String := "docs"
  Packages : List PackageConfig := []
  Verbose : Bool := false

/-- Library routines used by the extraction code.

* `formatNode n` is `format.Node(&buf, g.fset, n)`: `some text` when it returns
  a nil error and `buf.String()` is `text`, `none` when it returns an error.
* `commentText g` is `g.Text()` for a non-nil comment group.
* `stat p` is true when `os.Stat(p)` returns a nil error.
* `join` is `filepath.Join`.
* `parseDir dir filter` is `parser.ParseDir(fset, dir, filter, parser.ParseComments)`:
  the error when it is non-nil, otherwise the parsed packages in the order in
  which the `range` loop over the resulting map enumerates them.
* `docNew pkg importPath` is `doc.New(pkg, importPath, doc.AllDecls)`. -/
structure Env where
  formatNode : Node → Option String
  commentText : CommentGroup → String
  stat : String → Bool
  join : List String → String
  parseDir : String → (String → Bool) → Except String (List AstPackage)
  docNew : AstPackage → String → DocPackage

/-! ## String helpers (`strings`) -/

/-- `strings.HasSuffix`: `len(s) >= len(suffix) && s[len(s)-len(suffix):] == suffix`. -/
def hasSuffix (s suffix : String) : Bool :=
  decide (s.data.length ≥ suffix.data.length) &&
    decide (s.data.drop (s.data.length - suffix.data.length) = suffix.data)

/-- `strings.HasPrefix`: `len(s) >= len(prefix) && s[:len(prefix)] == prefix`. -/
def hasPrefix (s pre : String) : Bool :=
  decide (s.data.length ≥ pre.data.length) &&
    decide (s.data.take pre.data.length = pre.data)

/-- `unicode.IsSpace`: the white space characters of Unicode. -/
def isSpace (c : Char) : Bool :=
  c.val = 0x09 || c.val = 0x0A || c.val = 0x0B || c.val = 0x0C || c.val = 0x0D ||
  c.val = 0x20 || c.val = 0x85 || c.val = 0xA0 || c.val = 0x1680 ||
  (0x2000 ≤ c.val && c.val ≤ 0x200A) || c.val = 0x2028 || c.val = 0x2029 ||
  c.val = 0x202F || c.val = 0x205F || c.val = 0x3000

/-- `strings.TrimSpace`: remove all leading and trailing white space. -/
def trimSpace (s : String) : String :=
  ⟨((s.data.dropWhile isSpace).reverse.dropWhile isSpace).reverse⟩

/-! ## Helper methods of `DocGenerator` -/

/-- `getFunctionSignature`: the re-printed declaration, or the synthetic
signature when the declaration is missing or cannot be printed. -/
def getFunctionSignature (env : Env) (f : DocFunc) : String :=
  match f.Decl with
  | some decl =>
    match env.formatNode (.funcDecl decl) with
    | some text => text
    | none => "func " ++ f.Name ++ "(...)"
  | none => "func " ++ f.Name ++ "(...)"

/-- `getTypeDecl`: the re-printed declaration, or `type <name>`. -/
def getTypeDecl (env : Env) (t : DocType) : String :=
  match t.Decl with
  | some decl =>
    match env.formatNode (.genDecl decl) with
    | some text => text
    | none => "type " ++ t.Name
  | none => "type " ++ t.Name

/-- `getTypeKind`: the kind tag of a type entry, by a type switch on the type
expression of the first specification of its declaration. -/
def getTypeKind (t : DocType) : String :=
  match t.Decl with
  | some decl =>
    match decl.Specs with
    | .typeSpec typeSpec :: _ =>
      match typeSpec.Type_ with
      | .structType _ => "struct"
      | .interfaceType _ => "interface"
      | .funcType _ _ => "function"
      | .arrayType _ _ => "array"
      | .mapType _ _ => "map"
      | .chanType _ _ => "channel"
      | _ => "type"
    | _ => "type"
  | none => "type"

/-- Body of the loop of `getTypeFields`: the member descriptor of one entry. -/
def getTypeFields.entry (env : Env) (field : Field) : FieldDoc :=
  let fieldDoc : FieldDoc := {}
  -- Get field name
  let fieldDoc :=
    match field.Names with
    | name :: _ => { fieldDoc with Name := name.Name }
    | [] =>
      -- Embedded field
      match field.Type_ with
      | .ident ident => { fieldDoc with Name := ident.Name }
      | _ => fieldDoc
  -- Get field type
  let fieldDoc :=
    match env.formatNode (.expr field.Type_) with
    | some text => { fieldDoc with Type_ := text }
    | none => fieldDoc
  -- Get field tag
  let fieldDoc :=
    match field.Tag with
    | some tag => { fieldDoc with Tag := tag.Value }
    | none => fieldDoc
  -- Get field documentation
  let fieldDoc :=
    match field.Doc with
    | some doc => { fieldDoc with Doc := trimSpace (env.commentText doc) }
    | none =>
      match field.Comment with
      | some comment => { fieldDoc with Doc := trimSpace (env.commentText comment) }
      | none => fieldDoc
  fieldDoc

/-- `getTypeFields`: the member descriptors of a struct type, appended one per
entry of `structType.Fields.List`; empty for every other type. -/
def getTypeFields (env : Env) (t : DocType) : List FieldDoc :=
  match t.Decl with
  | some decl =>
    match decl.Specs with
    | .typeSpec typeSpec :: _ =>
      match typeSpec.Type_ with
      | .structType list =>
        list.foldl (fun fields field => fields ++ [getTypeFields.entry env field]) []
      | _ => []
    | _ => []
  | none => []

/-- `getTypeUnderlying`: the re-printed type expression of a type that is
neither a struct nor an interface, when it can be printed; empty otherwise. -/
def getTypeUnderlying (env : Env) (t : DocType) : String :=
  match t.Decl with
  | some decl =>
    match decl.Specs with
    | .typeSpec typeSpec :: _ =>
      match typeSpec.Type_ with
      | .structType _ => ""
      | .interfaceType _ => ""
      | typeExpr =>
        -- This is a type alias or named type
        match env.formatNode (.expr typeExpr) with
        | some text => text
        | none => ""
    | _ => ""
  | none => ""

/-- `getValueDecl`: the re-printed specification, or its first name, or empty. -/
def getValueDecl (env : Env) (spec : ValueSpec) : String :=
  match env.formatNode (.valueSpec spec) with
  | some text => text
  | none =>
    match spec.Names with
    | name :: _ => name.Name
    | [] => ""

/-! ## `parsePackage` -/

/-- The file filter that `parsePackage` hands to `parser.ParseDir`, as a
function of `info.Name()`. -/
def parsePackage.filter (name : String) : Bool :=
  -- Exclude _test.go files
  if hasSuffix name "_test.go" then false
  -- Include all other .go files
  else hasSuffix name ".go"

/-- Loop "Extract functions" of `parsePackage`. -/
def parsePackage.functions (env : Env) (funcs : List DocFunc) : List FunctionDoc :=
  funcs.foldl (fun functions f =>
    -- Skip test functions
    if hasPrefix f.Name "Test" || hasPrefix f.Name "Benchmark" then functions
    else functions ++
      [{ Name := f.Name, Doc := f.Doc, Signature := getFunctionSignature env f }]) []

/-- Inner loop "Extract methods" of `parsePackage`, starting from `typeDoc`. -/
def parsePackage.methods (env : Env) (typeDoc : TypeDoc) (methods : List DocFunc) : TypeDoc :=
  methods.foldl (fun typeDoc m =>
    { typeDoc with Methods := typeDoc.Methods ++
        [{ Name := m.Name, Doc := m.Doc, Signature := getFunctionSignature env m }] }) typeDoc

/-- Loop "Extract types" of `parsePackage`. -/
def parsePackage.types (env : Env) (types : List DocType) : List TypeDoc :=
  types.foldl (fun acc t =>
    let typeDoc : TypeDoc :=
      { Name := t.Name
        Doc := t.Doc
        Decl := getTypeDecl env t
        Kind := getTypeKind t
        Fields := getTypeFields env t
        Underlying := getTypeUnderlying env t }
    acc ++ [parsePackage.methods env typeDoc t.Methods]) []

/-- Loops "Extract constants" and "Extract variables" of `parsePackage`: for
every group, every value specification of its declaration and every name of
that specification, one descriptor. -/
def parsePackage.values (env : Env) (groups : List DocValue) : List ValueDoc :=
  groups.foldl (fun acc c =>
    c.Decl.Specs.foldl (fun acc spec =>
      match spec with
      | .valueSpec valueSpec =>
        valueSpec.Names.foldl (fun acc name =>
          acc ++ [{ Name := name.Name, Doc := c.Doc, Decl := getValueDecl env valueSpec }]) acc
      | _ => acc) acc) []

/-- `parsePackage`: locate the package directory, parse it, pick a package
whose name does not end in `_test`, build the documentation index and convert
it to the package model.  An error is the text of the Go error. -/
def parsePackage (env : Env) (config : Config) (packageName : String) :
    Except String PackageDoc :=
  -- Try different possible locations
  let possiblePaths := [env.join [config.RootDir, packageName], env.join [config.RootDir]]
  let pkgPath :=
    match possiblePaths.find? env.stat with
    | some path => path
    | none => ""
  if pkgPath = "" then
    .error ("package directory not found for " ++ packageName)
  else
    match env.parseDir pkgPath parsePackage.filter with
    | .error err => .error err
    | .ok pkgs =>
      match pkgs.find? (fun p => !hasSuffix p.Name "_test") with
      | none => .error ("no package found in " ++ pkgPath)
      | some pkg =>
        let docPkg := env.docNew pkg ("./" ++ packageName)
        .ok
          { Name := docPkg.Name
            ImportPath := config.ImportPath ++ "/" ++ packageName
            Doc := docPkg.Doc
            Functions := parsePackage.functions env docPkg.Funcs
            Types := parsePackage.types env docPkg.Types
            Constants := parsePackage.values env docPkg.Consts
            Variables := parsePackage.values env docPkg.Vars }

/-! ## Notions used to state the properties -/

/-- The first specification of the declaration of a type entry, when the
declaration is present and its specification list is not empty. -/
def firstSpec (t : DocType) : Option Spec :=
  match t.Decl with
  | some decl => decl.Specs.head?
  | none => none

/-- The kind tag as a function of the first specification alone. -/
def specKind : Option Spec → String
  | some (.typeSpec ⟨_, .structType _⟩) => "struct"
  | some (.typeSpec ⟨_, .interfaceType _⟩) => "interface"
  | some (.typeSpec ⟨_, .funcType _ _⟩) => "function"
  | some (.typeSpec ⟨_, .arrayType _ _⟩) => "array"
  | some (.typeSpec ⟨_, .mapType _ _⟩) => "map"
  | some (.typeSpec ⟨_, .chanType _ _⟩) => "channel"
  | _ => "type"

/-- Type entry of the index for a declaration with the single specification
`type <name> <rhs>`, the form in which `doc.New` reports a declared type. -/
def declaredType (name : String) (rhs : Expr) : DocType :=
  { Name := name, Doc := "", Decl := some ⟨"type", [.typeSpec ⟨⟨name⟩, rhs⟩]⟩, Methods := [] }

/-- Named member entry `<name> <type>` without comments or tag. -/
def plainField (name : String) (type : Expr) : Field :=
  .mk none [⟨name⟩] type none none

/-- `format.Node` of the examples: identifiers, pointers to identifiers,
qualified identifiers and slices of identifiers print as in Go source, a
function declaration prints its name with empty parentheses, the bad expression
cannot be printed, every other node prints as an elision. -/
def exampleFormat : Node → Option String
  | .expr (.ident i) => some i.Name
  | .expr (.star (.ident i)) => some ("*" ++ i.Name)
  | .expr (.selector (.ident x) sel) => some (x.Name ++ "." ++ sel.Name)
  | .expr (.arrayType none (.ident i)) => some ("[]" ++ i.Name)
  | .expr .bad => none
  | .funcDecl d => some ("func " ++ d.Name.Name ++ "()")
  | _ => some "..."

/-- The struct type of the examples:
`struct { ID string; Base; *Node; io.Reader; X, Y int; Pos struct { Line int } }`,
where `ID` carries a doc comment, a tag and a trailing comment, and `Base` a
trailing comment only. -/
def widgetStruct : Expr :=
  .structType
    [ .mk (some ⟨[⟨"// ID is the key."⟩]⟩) [⟨"ID"⟩] (.ident ⟨"string"⟩)
        (some ⟨"STRING", "`json:\"id\"`"⟩) (some ⟨[⟨"// unique"⟩]⟩),
      .mk none [] (.ident ⟨"Base"⟩) none (some ⟨[⟨"// common part\t"⟩]⟩),
      .mk none [] (.star (.ident ⟨"Node"⟩)) none none,
      .mk none [] (.selector (.ident ⟨"io"⟩) ⟨"Reader"⟩) none none,
      .mk none [⟨"X"⟩, ⟨"Y"⟩] (.ident ⟨"int"⟩) none none,
      plainField "Pos" (.structType [plainField "Line" (.ident ⟨"int"⟩)]) ]

/-- The documentation index of the examples: functions `New`, `TestNew`,
`BenchmarkNew`, `Testify` and `Attest`; types `Widget` (the struct above, with a method
`Close`), `Empty` (`struct{}`), `Reader` (an interface), `Names` (`[]string`),
`ID` (`string`) and `Broken` (a type expression that cannot be printed);
constants `A, B = 1, 2` in one group. -/
def widgetIndex : DocPackage where
  Name := "widget"
  Doc := "Package widget."
  Funcs :=
    [ ⟨"New", "New creates a Widget.", some ⟨[], ⟨"New"⟩, [], []⟩⟩,
      ⟨"TestNew", "", some ⟨[], ⟨"TestNew"⟩, [], []⟩⟩,
      ⟨"BenchmarkNew", "", none⟩,
      ⟨"Testify", "", none⟩,
      ⟨"Attest", "", none⟩ ]
  Types :=
    [ { declaredType "Widget" widgetStruct with
          Methods := [⟨"Close", "Close releases the widget.", none⟩] },
      declaredType "Empty" (.structType []),
      declaredType "Reader" (.interfaceType []),
      declaredType "Names" (.arrayType none (.ident ⟨"string"⟩)),
      declaredType "ID" (.ident ⟨"string"⟩),
      declaredType "Broken" .bad ]
  Consts :=
    [ ⟨"Limits.", ["A", "B"],
        ⟨"const", [.valueSpec ⟨[⟨"A"⟩, ⟨"B"⟩], none,
          [.basicLit ⟨"INT", "1"⟩, .basicLit ⟨"INT", "2"⟩]⟩]⟩⟩ ]
  Vars := []

/-- An environment for the examples: `exampleFormat` as the printer; the text
of a comment group is the concatenation of its comments, each without its
two-character marker and followed by a line break; only the
directory `src/widget` exists; it holds `widget.go`, `widget_test.go` and
`README.md`, and the files that pass the filter form the package `widget`,
whose index is `widgetIndex`. -/
def exampleEnv : Env where
  formatNode := exampleFormat
  commentText g := String.join (g.List.map (fun c => ⟨c.Text.data.drop 2⟩ ++ "\n"))
  stat p := p = "src/widget"
  join elems := "/".intercalate elems
  parseDir dir filter :=
    if dir = "src/widget" then
      .ok [⟨"widget", ["widget.go", "widget_test.go", "README.md"].filter filter⟩]
    else .error ("open " ++ dir ++ ": no such file or directory")
  docNew _ _ := widgetIndex

/-- An environment in which `format.Node` always returns an error. -/
def failingFormatEnv : Env :=
  { exampleEnv with formatNode := fun _ => none }

/-- The configuration of the examples. -/
def exampleConfig : Config :=
  { ImportPath := "github.com/kolosys/widgets", RootDir := "src" }

/-- The model that `parsePackage` returns for the package `widget` of the
examples (the empty model if it failed). -/
def exampleModel : PackageDoc :=
  match parsePackage exampleEnv exampleConfig "widget" with
  | .ok doc => doc
  | .error _ => {}

/-! ## Notions used to state the properties of `parsePackage` -/

/-- The steps of `parsePackage` that follow the location of the package
directory `pkgPath`: parse the directory, pick a package, build the index and
convert it. -/
def parsePackage.extract (env : Env) (config : Config) (packageName pkgPath : String) :
    Except String PackageDoc :=
  match env.parseDir pkgPath parsePackage.filter with
  | .error err => .error err
  | .ok pkgs =>
    match pkgs.find? (fun p => !hasSuffix p.Name "_test") with
    | none => .error ("no package found in " ++ pkgPath)
    | some pkg =>
      let docPkg := env.docNew pkg ("./" ++ packageName)
      .ok
        { Name := docPkg.Name
          ImportPath := config.ImportPath ++ "/" ++ packageName
          Doc := docPkg.Doc
          Functions := parsePackage.functions env docPkg.Funcs
          Types := parsePackage.types env docPkg.Types
          Constants := parsePackage.values env docPkg.Consts
          Variables := parsePackage.values env docPkg.Vars }

/-- The names that the value specifications of a declaration declare, in
declaration order. -/
def valueNames (decl : GenDecl) : List Ident :=
  decl.Specs.flatMap (fun spec =>
    match spec with
    | .valueSpec valueSpec => valueSpec.Names
    | _ => [])

/-- The descriptor list `out` is made of one part per group of `groups`, in
order, and the part of a group has one descriptor per name that the group
declares, in declaration order, each with the doc text of the group. -/
def ExpandsGroups (groups : List DocValue) (out : List ValueDoc) : Prop :=
  ∃ parts : List (List ValueDoc),
    out = parts.flatten ∧
    List.Forall₂ (fun c part =>
      part.length = (valueNames c.Decl).length ∧
      part.map (fun vd => vd.Name) = (valueNames c.Decl).map (fun name => name.Name) ∧
      ∀ vd ∈ part, vd.Doc = c.Doc) groups parts

/-- The member entries of a type entry: the field list of the struct type of
its first specification, empty when that is no struct type. -/
def memberEntries (t : DocType) : List Field :=
  match firstSpec t with
  | some (.typeSpec ⟨_, .structType list⟩) => list
  | _ => []

/-- `token.IsExported`: the name begins with an upper-case letter (here an
upper-case letter of the ASCII range). -/
def isExported (name : String) : Bool :=
  match name.data with
  | c :: _ => c.isUpper
  | [] => false

/-- `strings.Contains`: `sub` occurs in `s`. -/
def containsText (s sub : String) : Bool :=
  s.data.tails.any (fun t => sub.data.isPrefixOf t)

/-- An index with an unexported function and an unexported type, as `doc.New`
reports them in the mode `doc.AllDecls`: functions `Open` and `helper`, types
`Store` and `node`. -/
def internalIndex : DocPackage where
  Name := "store"
  Doc := ""
  Funcs := [ ⟨"Open", "Open opens the store.", none⟩, ⟨"helper", "", none⟩ ]
  Types := [ declaredType "Store" (.structType []), declaredType "node" (.structType []) ]
  Consts := []
  Vars := []

/-- The example environment with `internalIndex` as the index. -/
def internalEnv : Env :=
  { exampleEnv with docNew := fun _ _ => internalIndex }

/-- The model that `parsePackage` returns in `internalEnv` (the empty model if
it failed). -/
def internalModel : PackageDoc :=
  match parsePackage internalEnv exampleConfig "widget" with
  | .ok doc => doc
  | .error _ => {}

/-- The constant group `const ( _ = iota; A; _; B )` with the doc text
"Levels.". -/
def blankGroup : DocValue :=
  ⟨"Levels.", ["_", "A", "_", "B"],
    ⟨"const",
      [ .valueSpec ⟨[⟨"_"⟩], none, [.ident ⟨"iota"⟩]⟩,
        .valueSpec ⟨[⟨"A"⟩], none, []⟩,
        .valueSpec ⟨[⟨"_"⟩], none, []⟩,
        .valueSpec ⟨[⟨"B"⟩], none, []⟩ ]⟩⟩

/-- The example environment whose index has the one constant group
`blankGroup`. -/
def blankEnv : Env :=
  { exampleEnv with
    docNew := fun _ _ =>
      { Name := "widget", Doc := "", Funcs := [], Types := [], Consts := [blankGroup],
        Vars := [] } }

/-- The model that `parsePackage` returns in `blankEnv` (the empty model if it
failed). -/
def blankModel : PackageDoc :=
  match parsePackage blankEnv exampleConfig "widget" with
  | .ok doc => doc
  | .error _ => {}

/-- The descriptor list `out` is made of one part per group of `groups`, in
order; the names of the part of a group are the names that the group declares,
in declaration order, and so are pairwise distinct exactly when the declared
names are. -/
def NamedAsDeclared (groups : List DocValue) (out : List ValueDoc) : Prop :=
  ∃ parts : List (List ValueDoc),
    out = parts.flatten ∧
    List.Forall₂ (fun c part =>
      part.map (fun vd => vd.Name) = (valueNames c.Decl).map (fun name => name.Name) ∧
      ((part.map (fun vd => vd.Name)).Nodup ↔
        ((valueNames c.Decl).map (fun name => name.Name)).Nodup)) groups parts

/-- An environment in which only the root directory `src` exists, holding the
package `widget` itself (a single-package repository). -/
def rootOnlyEnv : Env :=
  { exampleEnv with
    stat := fun p => p = "src"
    parseDir := fun dir filter =>
      if dir = "src" then
        .ok [⟨"widget", ["widget.go", "widget_test.go"].filter filter⟩]
      else .error ("open " ++ dir ++ ": no such file or directory") }

/-- The model that `parsePackage` returns for the package name `missing` in
`rootOnlyEnv` (the empty model if it failed). -/
def rootOnlyModel : PackageDoc :=
  match parsePackage rootOnlyEnv exampleConfig "missing" with
  | .ok doc => doc
  | .error _ => {}

/-- The index of a generator program `package main` with the one function
`main`. -/
def generatorIndex : DocPackage where
  Name := "main"
  Doc := ""
  Funcs := [ ⟨"main", "", none⟩ ]
  Types := []
  Consts := []
  Vars := []

/-- An environment whose directory `src/widget` holds `widget.go` of the
package `widget` and `gen.go` of the package `main`; `pkgs` is the order in
which the `range` loop enumerates the map of the two parsed packages. -/
def twoPackagesEnv (pkgs : List AstPackage) : Env :=
  { exampleEnv with
    parseDir := fun _ _ => .ok pkgs
    docNew := fun pkg _ => if pkg.Name = "widget" then widgetIndex else generatorIndex }

/-! ## Generation of the files of one package and the loop of `main` -/

/-- The operations of the program on the file system, as transformers of a
state of the file system `σ`; each returns the Go error, `none` for nil, and
the new state.  `mkdirAll` is `os.MkdirAll(path, 0755)`; the other fields are
the template renderers of `main.go`, which create and write one file or a set
of files under the path they are given. -/
structure Effects (σ : Type) where
  mkdirAll : String → σ → Option String × σ
  generatePackageMarkdown : PackageDoc → String → σ → Option String × σ
  generateAPIMarkdown : PackageDoc → String → σ → Option String × σ
  generateExamples : PackageDoc → String → σ → Option String × σ
  generateGettingStartedMarkdown : PackageDoc → String → σ → Option String × σ
  generatePackageGuides : PackageDoc → String → σ → Option String × σ

/-- `GeneratePackageDocs`: parse the package, then create the directories and
render the files of the package one after the other, returning at the first
error.  `fmt.Errorf("...: %w", err)` is the text before the colon followed by
the text of the wrapped error. -/
def GeneratePackageDocs {σ : Type} (env : Env) (eff : Effects σ) (config : Config)
    (packageName : String) (w : σ) : Option String × σ :=
  -- Parse the package
  match parsePackage env config packageName with
  | .error err => (some ("failed to parse package: " ++ err), w)
  | .ok pkgDoc =>
    -- Generate package overview as single file in packages directory
    let packagesDir := env.join [config.DocsDir, "packages"]
    match eff.mkdirAll packagesDir w with
    | (some err, w) => (some ("failed to create packages directory: " ++ err), w)
    | (none, w) =>
    let packageFile := env.join [packagesDir, packageName ++ ".md"]
    match eff.generatePackageMarkdown pkgDoc packageFile w with
    | (some err, w) => (some ("failed to generate package markdown: " ++ err), w)
    | (none, w) =>
    -- Generate API reference as single file in api-reference directory
    let apiDir := env.join [config.DocsDir, "api-reference"]
    match eff.mkdirAll apiDir w with
    | (some err, w) => (some ("failed to create API directory: " ++ err), w)
    | (none, w) =>
    let apiFile := env.join [apiDir, packageName ++ ".md"]
    match eff.generateAPIMarkdown pkgDoc apiFile w with
    | (some err, w) => (some ("failed to generate API reference: " ++ err), w)
    | (none, w) =>
    -- Generate examples in examples directory
    let examplesDir := env.join [config.DocsDir, "examples", packageName]
    match eff.mkdirAll examplesDir w with
    | (some err, w) => (some ("failed to create examples directory: " ++ err), w)
    | (none, w) =>
    match eff.generateExamples pkgDoc examplesDir w with
    | (some err, w) => (some ("failed to generate examples: " ++ err), w)
    | (none, w) =>
    -- Generate getting-started file for package in getting-started directory
    let gettingStartedDir := env.join [config.DocsDir, "getting-started"]
    match eff.mkdirAll gettingStartedDir w with
    | (some err, w) => (some ("failed to create getting-started directory: " ++ err), w)
    | (none, w) =>
    let gettingStartedFile := env.join [gettingStartedDir, packageName ++ ".md"]
    match eff.generateGettingStartedMarkdown pkgDoc gettingStartedFile w with
    | (some err, w) => (some ("failed to generate getting-started file: " ++ err), w)
    | (none, w) =>
    -- Generate guides in package-specific directory structure
    let packageGuidesDir := env.join [config.DocsDir, "guides", packageName]
    match eff.mkdirAll packageGuidesDir w with
    | (some err, w) => (some ("failed to create package guides directory: " ++ err), w)
    | (none, w) =>
    match eff.generatePackageGuides pkgDoc packageGuidesDir w with
    | (some err, w) => (some ("failed to generate guides: " ++ err), w)
    | (none, w) => (none, w)

/-- The loop of `main` over the configured packages, for a generator `gen` in
the place of `generator.GeneratePackageDocs`: the state is the state of the
file system together with the lines printed so far. -/
def main.loop {σ : Type} (gen : String → σ → Option String × σ) (verbose : Bool)
    (packages : List PackageConfig) (st : σ × List String) : σ × List String :=
  packages.foldl (fun st pkg =>
    let out :=
      if verbose then st.2 ++ ["📝 Generating documentation for " ++ pkg.Name ++ "..."]
      else st.2
    match gen pkg.Name st.1 with
    | (some err, w) =>
      -- continue
      (w, out ++ ["❌ Error generating docs for " ++ pkg.Name ++ ": " ++ err])
    | (none, w) =>
      (w, if verbose then out ++ ["✅ Generated documentation for " ++ pkg.Name] else out)) st

/-- The loop of `main` with `GeneratePackageDocs` as the generator. -/
def main.run {σ : Type} (env : Env) (eff : Effects σ) (config : Config)
    (st : σ × List String) : σ × List String :=
  main.loop (GeneratePackageDocs env eff config) config.Verbose config.Packages st

/-- File system operations as a log: every operation succeeds and appends its
name and path to the log. -/
def loggingEffects : Effects (List String) where
  mkdirAll path w := (none, w ++ ["mkdir " ++ path])
  generatePackageMarkdown _ path w := (none, w ++ ["write " ++ path])
  generateAPIMarkdown _ path w := (none, w ++ ["write " ++ path])
  generateExamples _ path w := (none, w ++ ["write " ++ path ++ "/README.md"])
  generateGettingStartedMarkdown _ path w := (none, w ++ ["write " ++ path])
  generatePackageGuides _ path w := (none, w ++ ["write " ++ path ++ "/best-practices.md"])

/-- A generator that records the package name of every call and fails for the
names that `fails` marks. -/
def recordingGenerator (fails : String → Bool) (name : String) (calls : List String) :
    Option String × List String :=
  (if fails name then some "failed" else none, calls ++ [name])

/-! ## The `truncate` template helper -/

/-- The `truncate` helper of the templates, on the bytes of the string:
`if len(s) > 100 { return s[:97] + "..." }; return s`. -/
def truncate (s : List UInt8) : List UInt8 :=
  if s.length > 100 then s.take 97 ++ [46, 46, 46]
  else s

/-! ## The copy of the extraction code in `src/shared/scripts/generate-docs.go` -/

/-- `getFunctionSignature`: the re-printed declaration, or the synthetic
signature when the declaration is missing or cannot be printed. -/
def Shared.getFunctionSignature (env : Env) (f : DocFunc) : String :=
  match f.Decl with
  | some decl =>
    match env.formatNode (.funcDecl decl) with
    | some text => text
    | none => "func " ++ f.Name ++ "(...)"
  | none => "func " ++ f.Name ++ "(...)"

/-- `getTypeDecl`: the re-printed declaration, or `type <name>`. -/
def Shared.getTypeDecl (env : Env) (t : DocType) : String :=
  match t.Decl with
  | some decl =>
    match env.formatNode (.genDecl decl) with
    | some text => text
    | none => "type " ++ t.Name
  | none => "type " ++ t.Name

/-- `getTypeKind`: the kind tag of a type entry, by a type switch on the type
expression of the first specification of its declaration. -/
def Shared.getTypeKind (t : DocType) : String :=
  match t.Decl with
  | some decl =>
    match decl.Specs with
    | .typeSpec typeSpec :: _ =>
      match typeSpec.Type_ with
      | .structType _ => "struct"
      | .interfaceType _ => "interface"
      | .funcType _ _ => "function"
      | .arrayType _ _ => "array"
      | .mapType _ _ => "map"
      | .chanType _ _ => "channel"
      | _ => "type"
    | _ => "type"
  | none => "type"

/-- Body of the loop of `getTypeFields`: the member descriptor of one entry. -/
def Shared.getTypeFields.entry (env : Env) (field : Field) : FieldDoc :=
  let fieldDoc : FieldDoc := {}
  -- Get field name
  let fieldDoc :=
    match field.Names with
    | name :: _ => { fieldDoc with Name := name.Name }
    | [] =>
      -- Embedded field
      match field.Type_ with
      | .ident ident => { fieldDoc with Name := ident.Name }
      | _ => fieldDoc
  -- Get field type
  let fieldDoc :=
    match env.formatNode (.expr field.Type_) with
    | some text => { fieldDoc with Type_ := text }
    | none => fieldDoc
  -- Get field tag
  let fieldDoc :=
    match field.Tag with
    | some tag => { fieldDoc with Tag := tag.Value }
    | none => fieldDoc
  -- Get field documentation
  let fieldDoc :=
    match field.Doc with
    | some doc => { fieldDoc with Doc := trimSpace (env.commentText doc) }
    | none =>
      match field.Comment with
      | some comment => { fieldDoc with Doc := trimSpace (env.commentText comment) }
      | none => fieldDoc
  fieldDoc

/-- `getTypeFields`: the member descriptors of a struct type, appended one per
entry of `structType.Fields.List`; empty for every other type. -/
def Shared.getTypeFields (env : Env) (t : DocType) : List FieldDoc :=
  match t.Decl with
  | some decl =>
    match decl.Specs with
    | .typeSpec typeSpec :: _ =>
      match typeSpec.Type_ with
      | .structType list =>
        list.foldl
          (fun fields field => fields ++ [Shared.getTypeFields.entry env field]) []
      | _ => []
    | _ => []
  | none => []

/-- `getTypeUnderlying`: the re-printed type expression of a type that is
neither a struct nor an interface, when it can be printed; empty otherwise. -/
def Shared.getTypeUnderlying (env : Env) (t : DocType) : String :=
  match t.Decl with
  | some decl =>
    match decl.Specs with
    | .typeSpec typeSpec :: _ =>
      match typeSpec.Type_ with
      | .structType _ => ""
      | .interfaceType _ => ""
      | typeExpr =>
        -- This is a type alias or named type
        match env.formatNode (.expr typeExpr) with
        | some text => text
        | none => ""
    | _ => ""
  | none => ""

/-- `getValueDecl`: the re-printed specification, or its first name, or empty. -/
def Shared.getValueDecl (env : Env) (spec : ValueSpec) : String :=
  match env.formatNode (.valueSpec spec) with
  | some text => text
  | none =>
    match spec.Names with
    | name :: _ => name.Name
    | [] => ""

/-! ### `parsePackage` of `generate-docs.go` -/

/-- The file filter that `parsePackage` hands to `parser.ParseDir`, as a
function of `info.Name()`. -/
def Shared.parsePackage.filter (name : String) : Bool :=
  -- Exclude _test.go files
  if hasSuffix name "_test.go" then false
  -- Include all other .go files
  else hasSuffix name ".go"

/-- Loop "Extract functions" of `parsePackage`. -/
def Shared.parsePackage.functions (env : Env) (funcs : List DocFunc) : List FunctionDoc :=
  funcs.foldl (fun functions f =>
    -- Skip test functions
    if hasPrefix f.Name "Test" || hasPrefix f.Name "Benchmark" then functions
    else functions ++
      [{ Name := f.Name, Doc := f.Doc, Signature := Shared.getFunctionSignature env f }]) []

/-- Inner loop "Extract methods" of `parsePackage`, starting from `typeDoc`. -/
def Shared.parsePackage.methods (env : Env) (typeDoc : TypeDoc) (methods : List DocFunc) :
    TypeDoc :=
  methods.foldl (fun typeDoc m =>
    { typeDoc with Methods := typeDoc.Methods ++
        [{ Name := m.Name, Doc := m.Doc, Signature := Shared.getFunctionSignature env m }] }) typeDoc

/-- Loop "Extract types" of `parsePackage`. -/
def Shared.parsePackage.types (env : Env) (types : List DocType) : List TypeDoc :=
  types.foldl (fun acc t =>
    let typeDoc : TypeDoc :=
      { Name := t.Name
        Doc := t.Doc
        Decl := Shared.getTypeDecl env t
        Kind := Shared.getTypeKind t
        Fields := Shared.getTypeFields env t
        Underlying := Shared.getTypeUnderlying env t }
    acc ++ [Shared.parsePackage.methods env typeDoc t.Methods]) []

/-- Loops "Extract constants" and "Extract variables" of `parsePackage`: for
every group, every value specification of its declaration and every name of
that specification, one descriptor. -/
def Shared.parsePackage.values (env : Env) (groups : List DocValue) : List ValueDoc :=
  groups.foldl (fun acc c =>
    c.Decl.Specs.foldl (fun acc spec =>
      match spec with
      | .valueSpec valueSpec =>
        valueSpec.Names.foldl (fun acc name =>
          acc ++
            [{ Name := name.Name, Doc := c.Doc, Decl := Shared.getValueDecl env valueSpec }]) acc
      | _ => acc) acc) []

/-- `parsePackage`: locate the package directory, parse it, pick a package
whose name does not end in `_test`, build the documentation index and convert
it to the package model.  An error is the text of the Go error. -/
def Shared.parsePackage (env : Env) (config : Config) (packageName : String) :
    Except String PackageDoc :=
  -- Try different possible locations
  let possiblePaths := [env.join [config.RootDir, packageName], env.join [config.RootDir]]
  let pkgPath :=
    match possiblePaths.find? env.stat with
    | some path => path
    | none => ""
  if pkgPath = "" then
    .error ("package directory not found for " ++ packageName)
  else
    match env.parseDir pkgPath Shared.parsePackage.filter with
    | .error err => .error err
    | .ok pkgs =>
      match pkgs.find? (fun p => !hasSuffix p.Name "_test") with
      | none => .error ("no package found in " ++ pkgPath)
      | some pkg =>
        let docPkg := env.docNew pkg ("./" ++ packageName)
        .ok
          { Name := docPkg.Name
            ImportPath := config.ImportPath ++ "/" ++ packageName
            Doc := docPkg.Doc
            Functions := Shared.parsePackage.functions env docPkg.Funcs
            Types := Shared.parsePackage.types env docPkg.Types
            Constants := Shared.parsePackage.values env docPkg.Consts
            Variables := Shared.parsePackage.values env docPkg.Vars }

/-! ## The directory parser of the standard library -/

/-- Entry of a directory listing together with the outcome of
`parser.ParseFile` on it: the declared package name, or the parse error. -/
structure DirEntry where
  Name : String
  IsDir : Bool
  Parsed : Except String String

/-- Add the file `filename` to the package `name` of `pkgs`, creating the
package at the end of the list when it is not there yet
(`pkgs[name].Files[filename] = src` in `parser.ParseDir`). -/
def addFile (pkgs : List AstPackage) (name filename : String) : List AstPackage :=
  if pkgs.any (fun p => p.Name = name) then
    pkgs.map (fun p => if p.Name = name then { p with Files := p.Files ++ [filename] } else p)
  else pkgs ++ [⟨name, [filename]⟩]

/-- `parser.ParseDir` of the Go standard library on a directory whose listing
is `listing` (the error of `os.ReadDir`, or the entries): entries that are
directories, whose name does not end in ".go" or that the filter rejects are
skipped; every other entry is parsed and added to the package it declares; the
first parse error is kept.  The result is the error when there is one, and
otherwise the packages, here in the order in which they were first met. -/
def parseDirOf (listing : Except String (List DirEntry)) (join : List String → String)
    (path : String) (filter : String → Bool) : Except String (List AstPackage) :=
  match listing with
  | .error err => .error err
  | .ok list =>
    let result := list.foldl (fun (acc : List AstPackage × Option String) d =>
      if d.IsDir || !hasSuffix d.Name ".go" then acc
      else if !filter d.Name then acc
      else
        match d.Parsed with
        | .ok name => (addFile acc.1 name (join [path, d.Name]), acc.2)
        | .error err => (acc.1, if acc.2.isNone then some err else acc.2)) ([], none)
    match result.2 with
    | some first => .error first
    | none => .ok result.1

/-- An environment whose directory `src/widget` exists and holds no eligible
source file: a `README.md`, a test file `widget_test.go` and a
subdirectory `internal`. -/
def noSourceEnv : Env :=
  { exampleEnv with
    parseDir := fun dir filter =>
      parseDirOf
        (if dir = "src/widget" then
          .ok [ ⟨"README.md", false, .error "expected 'package', found '#'"⟩,
                ⟨"widget_test.go", false, .ok "widget"⟩,
                ⟨"internal", true, .error "is a directory"⟩ ]
        else .error ("open " ++ dir ++ ": no such file or directory"))
        exampleEnv.join dir filter }

/-- An environment whose directory `src/widget` holds the one eligible source
file `widget.go`, which does not parse. -/
def brokenSourceEnv : Env :=
  { exampleEnv with
    parseDir := fun dir filter =>
      parseDirOf
        (if dir = "src/widget" then
          .ok [ ⟨"widget.go", false, .error "src/widget/widget.go:1:1: expected 'package'"⟩ ]
        else .error ("open " ++ dir ++ ": no such file or directory"))
        exampleEnv.join dir filter }

/-! ## Notions used to state the properties of the members with several names -/

/-- The name under which `getTypeFields` lists a member entry: its first
declared name; for an entry without names the identifier of its type when the
type is a plain identifier, and the empty text otherwise. -/
def memberName (field : Field) : String :=
  match field.Names, field.Type_ with
  | name :: _, _ => name.Name
  | [], .ident ident => ident.Name
  | [], _ => ""

/-- The struct type `struct { A, _ int; _ string }`, with blank members. -/
def paddedStruct : Expr :=
  .structType
    [ .mk none [⟨"A"⟩, ⟨"_"⟩] (.ident ⟨"int"⟩) none none,
      .mk none [⟨"_"⟩] (.ident ⟨"string"⟩) none none ]

/-! ## Notions used to state the selection of the package -/

/-- The conversion step of `parsePackage`: the model built from the index of
the selected package `pkg`. -/
def parsePackage.convert (env : Env) (config : Config) (packageName : String)
    (pkg : AstPackage) : PackageDoc :=
  let docPkg := env.docNew pkg ("./" ++ packageName)
  { Name := docPkg.Name
    ImportPath := config.ImportPath ++ "/" ++ packageName
    Doc := docPkg.Doc
    Functions := parsePackage.functions env docPkg.Funcs
    Types := parsePackage.types env docPkg.Types
    Constants := parsePackage.values env docPkg.Consts
    Variables := parsePackage.values env docPkg.Vars }

/-! ## Examples with declarations that the index files under a type -/

/-- The constant group `const ( Red Color = iota; Green )` with the doc text
"Colors.". -/
def colorGroup : DocValue :=
  ⟨"Colors.\n", ["Red", "Green"],
    ⟨"const",
      [ .valueSpec ⟨[⟨"Red"⟩], some (.ident ⟨"Color"⟩), [.ident ⟨"iota"⟩]⟩,
        .valueSpec ⟨[⟨"Green"⟩], none, []⟩ ]⟩⟩

/-- The index that `doc.New` reports for the package
`type Color int; const ( Red Color = iota; Green )`,
`type Widget struct { ID string }; func New() *Widget`:
the constant group is filed under the type `Color` and the function `New`,
which returns `*Widget`, under the type `Widget`; the lists of functions,
constants and variables of the package entry are empty. -/
def associatedIndex : DocPackage where
  Name := "widget"
  Doc := ""
  Funcs := []
  Types :=
    [ { declaredType "Color" (.ident ⟨"int"⟩) with Consts := [colorGroup] },
      { declaredType "Widget" (.structType [plainField "ID" (.ident ⟨"string"⟩)]) with
          Funcs := [ ⟨"New", "New creates a Widget.\n",
            some ⟨[], ⟨"New"⟩, [], [.mk none [] (.star (.ident ⟨"Widget"⟩)) none none]⟩⟩ ] } ]
  Consts := []
  Vars := []

/-- The example environment with `associatedIndex` as the index. -/
def associatedEnv : Env :=
  { exampleEnv with docNew := fun _ _ => associatedIndex }

/-- The model that `parsePackage` returns in `associatedEnv` (the empty model
if it failed). -/
def associatedModel : PackageDoc :=
  match parsePackage associatedEnv exampleConfig "widget" with
  | .ok doc => doc
  | .error _ => {}

/-- The index of the package
`type ID string; type Names []string; type Widget struct { ID string }`. -/
def namedTypesIndex : DocPackage where
  Name := "widget"
  Doc := ""
  Funcs := []
  Types :=
    [ declaredType "ID" (.ident ⟨"string"⟩),
      declaredType "Names" (.arrayType none (.ident ⟨"string"⟩)),
      declaredType "Widget" (.structType [plainField "ID" (.ident ⟨"string"⟩)]) ]
  Consts := []
  Vars := []

/-- The example environment with `namedTypesIndex` as the index. -/
def namedTypesEnv : Env :=
  { exampleEnv with docNew := fun _ _ => namedTypesIndex }

/-- The model that `parsePackage` returns in `namedTypesEnv` (the empty model
if it failed). -/
def namedTypesModel : PackageDoc :=
  match parsePackage namedTypesEnv exampleConfig "widget" with
  | .ok doc => doc
  | .error _ => {}

/-! ## Properties of `getTypeKind` -/

theorem getTypeKind_eq_specKind (t : DocType) : getTypeKind t = specKind (firstSpec t) := by
  obtain ⟨name, doc, decl, methods⟩ := t
  cases decl with
  | none => rfl
  | some d =>
    obtain ⟨tok, specs⟩ := d
    cases specs with
    | nil => rfl
    | cons s rest =>
      cases s with
      | importSpec i => rfl
      | valueSpec v => rfl
      | typeSpec ts =>
        obtain ⟨n, ty⟩ := ts
        cases ty <;> rfl

/-- C1: `getTypeKind` returns one of the seven tags; it returns "struct",
"interface", "function", "array", "map" or "channel" exactly when the first
specification of the declaration is a type specification whose type expression
has the matching shape, and "type" in every other case, among them a missing
declaration, an empty specification list and a first specification that is not
a type specification; the tag depends on the first specification only. -/
theorem getTypeKind_classifies (t : DocType) :
    getTypeKind t ∈ ["struct", "interface", "function", "array", "map", "channel", "type"] ∧
    (getTypeKind t = "struct" ↔
      ∃ n fs, firstSpec t = some (.typeSpec ⟨n, .structType fs⟩)) ∧
    (getTypeKind t = "interface" ↔
      ∃ n ms, firstSpec t = some (.typeSpec ⟨n, .interfaceType ms⟩)) ∧
    (getTypeKind t = "function" ↔
      ∃ n ps rs, firstSpec t = some (.typeSpec ⟨n, .funcType ps rs⟩)) ∧
    (getTypeKind t = "array" ↔
      ∃ n len elt, firstSpec t = some (.typeSpec ⟨n, .arrayType len elt⟩)) ∧
    (getTypeKind t = "map" ↔
      ∃ n k v, firstSpec t = some (.typeSpec ⟨n, .mapType k v⟩)) ∧
    (getTypeKind t = "channel" ↔
      ∃ n d v, firstSpec t = some (.typeSpec ⟨n, .chanType d v⟩)) ∧
    (getTypeKind t = "type" ↔
      ∀ n ty, firstSpec t = some (.typeSpec ⟨n, ty⟩) →
        (∀ fs, ty ≠ .structType fs) ∧ (∀ ms, ty ≠ .interfaceType ms) ∧
        (∀ ps rs, ty ≠ .funcType ps rs) ∧ (∀ len elt, ty ≠ .arrayType len elt) ∧
        (∀ k v, ty ≠ .mapType k v) ∧ (∀ d v, ty ≠ .chanType d v)) ∧
    (t.Decl = none → getTypeKind t = "type") ∧
    (∀ decl, t.Decl = some decl → decl.Specs = [] → getTypeKind t = "type") ∧
    (∀ s, firstSpec t = some (.importSpec s) → getTypeKind t = "type") ∧
    (∀ s, firstSpec t = some (.valueSpec s) → getTypeKind t = "type") ∧
    (∀ t2, firstSpec t2 = firstSpec t → getTypeKind t2 = getTypeKind t) := by
  have hlast : ∀ t2, firstSpec t2 = firstSpec t → getTypeKind t2 = getTypeKind t := by
    intro t2 h
    rw [getTypeKind_eq_specKind, getTypeKind_eq_specKind, h]
  have hnone : t.Decl = none → getTypeKind t = "type" := by
    intro h
    simp [getTypeKind, h]
  have hnil : ∀ decl, t.Decl = some decl → decl.Specs = [] → getTypeKind t = "type" := by
    intro decl h hs
    simp [getTypeKind, h, hs]
  refine ⟨?_, ?_, ?_, ?_, ?_, ?_, ?_, ?_, hnone, hnil, ?_, ?_, hlast⟩ <;>
    rw [getTypeKind_eq_specKind] <;>
    rcases firstSpec t with _ | ⟨_ | _ | ⟨n, ty⟩⟩ <;>
    first
      | (cases ty <;> simp [specKind])
      | simp [specKind]

/-! ## Loops of `parsePackage` -/

theorem foldl_append_singleton {α β : Type} (f : α → β) (l : List α) (init : List β) :
    l.foldl (fun acc x => acc ++ [f x]) init = init ++ l.map f := by
  induction l generalizing init with
  | nil => simp
  | cons x xs ih => simp [ih]

theorem parsePackage.methods_eq (env : Env) (typeDoc : TypeDoc) (methods : List DocFunc) :
    parsePackage.methods env typeDoc methods =
      { typeDoc with Methods := typeDoc.Methods ++ methods.map (fun m =>
          { Name := m.Name, Doc := m.Doc, Signature := getFunctionSignature env m }) } := by
  unfold parsePackage.methods
  induction methods generalizing typeDoc with
  | nil => simp
  | cons m ms ih => simp [ih]

theorem parsePackage.types_eq (env : Env) (types : List DocType) :
    parsePackage.types env types = types.map (fun t =>
      { Name := t.Name
        Doc := t.Doc
        Decl := getTypeDecl env t
        Kind := getTypeKind t
        Fields := getTypeFields env t
        Methods := t.Methods.map (fun m =>
          { Name := m.Name, Doc := m.Doc, Signature := getFunctionSignature env m })
        Underlying := getTypeUnderlying env t }) := by
  unfold parsePackage.types
  rw [foldl_append_singleton]
  simp [parsePackage.methods_eq]

theorem parsePackage.mem_types {env : Env} {types : List DocType} {td : TypeDoc}
    (h : td ∈ parsePackage.types env types) :
    ∃ t ∈ types, td.Name = t.Name ∧ td.Kind = getTypeKind t ∧
      td.Fields = getTypeFields env t ∧ td.Underlying = getTypeUnderlying env t := by
  rw [parsePackage.types_eq, List.mem_map] at h
  obtain ⟨t, ht, rfl⟩ := h
  exact ⟨t, ht, rfl, rfl, rfl, rfl⟩

/-- A successful `parsePackage` found a directory, parsed it without error,
picked a package and converted the index of that package. -/
theorem parsePackage_ok {env : Env} {config : Config} {packageName : String} {doc : PackageDoc}
    (h : parsePackage env config packageName = .ok doc) :
    ∃ pkgPath pkgs pkg,
      env.parseDir pkgPath parsePackage.filter = .ok pkgs ∧
      pkgs.find? (fun p => !hasSuffix p.Name "_test") = some pkg ∧
      doc.Name = (env.docNew pkg ("./" ++ packageName)).Name ∧
      doc.ImportPath = config.ImportPath ++ "/" ++ packageName ∧
      doc.Doc = (env.docNew pkg ("./" ++ packageName)).Doc ∧
      doc.Functions = parsePackage.functions env (env.docNew pkg ("./" ++ packageName)).Funcs ∧
      doc.Types = parsePackage.types env (env.docNew pkg ("./" ++ packageName)).Types ∧
      doc.Constants = parsePackage.values env (env.docNew pkg ("./" ++ packageName)).Consts ∧
      doc.Variables = parsePackage.values env (env.docNew pkg ("./" ++ packageName)).Vars := by
  unfold parsePackage at h
  simp only [] at h
  split at h
  · exact absurd h (by simp)
  · split at h
    · exact absurd h (by simp)
    · rename_i pkgs hparse
      split at h
      · exact absurd h (by simp)
      · rename_i pkg hfind
        injection h with h
        subst h
        exact ⟨_, pkgs, pkg, hparse, hfind, rfl, rfl, rfl, rfl, rfl, rfl, rfl⟩

/-! ## Kind, members and underlying text of one type entry -/

theorem getTypeFields_struct {env : Env} {t : DocType} {n : Ident} {fs : List Field}
    (h : firstSpec t = some (.typeSpec ⟨n, .structType fs⟩)) :
    getTypeFields env t = fs.map (getTypeFields.entry env) := by
  obtain ⟨name, doc, decl, methods⟩ := t
  cases decl with
  | none => simp [firstSpec] at h
  | some d =>
    obtain ⟨tok, specs⟩ := d
    cases specs with
    | nil => simp [firstSpec] at h
    | cons s rest =>
      simp only [firstSpec, List.head?_cons, Option.some.injEq] at h
      subst h
      simp [getTypeFields, foldl_append_singleton]

theorem getTypeFields_of_kind_ne_struct {env : Env} {t : DocType}
    (h : getTypeKind t ≠ "struct") : getTypeFields env t = [] := by
  obtain ⟨name, doc, decl, methods⟩ := t
  cases decl with
  | none => rfl
  | some d =>
    obtain ⟨tok, specs⟩ := d
    cases specs with
    | nil => rfl
    | cons s rest =>
      cases s with
      | importSpec i => rfl
      | valueSpec v => rfl
      | typeSpec ts =>
        obtain ⟨n, ty⟩ := ts
        cases ty <;> first | rfl | exact absurd rfl h

theorem getTypeUnderlying_of_kind_struct_or_interface {env : Env} {t : DocType}
    (h : getTypeKind t = "struct" ∨ getTypeKind t = "interface") :
    getTypeUnderlying env t = "" := by
  obtain ⟨name, doc, decl, methods⟩ := t
  cases decl with
  | none => rfl
  | some d =>
    obtain ⟨tok, specs⟩ := d
    cases specs with
    | nil => rfl
    | cons s rest =>
      cases s with
      | importSpec i => rfl
      | valueSpec v => rfl
      | typeSpec ts =>
        obtain ⟨n, ty⟩ := ts
        cases ty <;> first | rfl | (simp [getTypeKind] at h)

theorem getTypeUnderlying_typeSpec {env : Env} {t : DocType} {n : Ident} {ty : Expr}
    (h : firstSpec t = some (.typeSpec ⟨n, ty⟩))
    (hs : getTypeKind t ≠ "struct") (hi : getTypeKind t ≠ "interface") :
    getTypeUnderlying env t = (env.formatNode (.expr ty)).getD "" := by
  obtain ⟨name, doc, decl, methods⟩ := t
  cases decl with
  | none => simp [firstSpec] at h
  | some d =>
    obtain ⟨tok, specs⟩ := d
    cases specs with
    | nil => simp [firstSpec] at h
    | cons s rest =>
      simp only [firstSpec, List.head?_cons, Option.some.injEq] at h
      subst h
      cases ty <;>
        first
          | exact absurd rfl hs
          | exact absurd rfl hi
          | (simp only [getTypeUnderlying]; cases env.formatNode _ <;> rfl)

theorem getTypeUnderlying_of_no_typeSpec {env : Env} {t : DocType}
    (h : ∀ n ty, firstSpec t ≠ some (.typeSpec ⟨n, ty⟩)) : getTypeUnderlying env t = "" := by
  obtain ⟨name, doc, decl, methods⟩ := t
  cases decl with
  | none => rfl
  | some d =>
    obtain ⟨tok, specs⟩ := d
    cases specs with
    | nil => rfl
    | cons s rest =>
      cases s with
      | importSpec i => rfl
      | valueSpec v => rfl
      | typeSpec ts => exact absurd rfl (h ts.Name ts.Type_)

/-! ## Claims on kind, members and underlying text -/

/-- C1, an instance: a type entry without declaration has the tag "type". -/
theorem getTypeKind_classifies_witness :
    getTypeKind { Name := "T", Doc := "", Decl := none, Methods := [] } = "type" :=
  (getTypeKind_classifies { Name := "T", Doc := "", Decl := none, Methods := [] }).2.2.2.2.2.2.2.2.1 rfl

/-- C2: for every type entry, the member list is non-empty only when the kind
is "struct", the underlying text is non-empty only when the kind is neither
"struct" nor "interface", an entry of kind "interface" has neither, and so the
two are never both non-empty; the same holds for the Kind, Fields and
Underlying of every type descriptor of a model returned by `parsePackage`. -/
theorem typeDoc_fields_underlying_exclusive (env : Env) :
    (∀ t : DocType,
      ¬ (getTypeFields env t ≠ [] ∧ getTypeUnderlying env t ≠ "") ∧
      (getTypeFields env t ≠ [] → getTypeKind t = "struct") ∧
      (getTypeUnderlying env t ≠ "" →
        getTypeKind t ≠ "struct" ∧ getTypeKind t ≠ "interface") ∧
      (getTypeKind t = "interface" →
        getTypeFields env t = [] ∧ getTypeUnderlying env t = "")) ∧
    (∀ config packageName doc td,
      parsePackage env config packageName = .ok doc → td ∈ doc.Types →
      ¬ (td.Fields ≠ [] ∧ td.Underlying ≠ "") ∧
      (td.Fields ≠ [] → td.Kind = "struct") ∧
      (td.Underlying ≠ "" → td.Kind ≠ "struct" ∧ td.Kind ≠ "interface") ∧
      (td.Kind = "interface" → td.Fields = [] ∧ td.Underlying = "")) := by
  have key : ∀ t : DocType,
      ¬ (getTypeFields env t ≠ [] ∧ getTypeUnderlying env t ≠ "") ∧
      (getTypeFields env t ≠ [] → getTypeKind t = "struct") ∧
      (getTypeUnderlying env t ≠ "" →
        getTypeKind t ≠ "struct" ∧ getTypeKind t ≠ "interface") ∧
      (getTypeKind t = "interface" →
        getTypeFields env t = [] ∧ getTypeUnderlying env t = "") := by
    intro t
    have hf : getTypeFields env t ≠ [] → getTypeKind t = "struct" := fun hne =>
      by_contra fun hk => hne (getTypeFields_of_kind_ne_struct hk)
    have hu : getTypeUnderlying env t ≠ "" →
        getTypeKind t ≠ "struct" ∧ getTypeKind t ≠ "interface" := fun hne =>
      ⟨fun hk => hne (getTypeUnderlying_of_kind_struct_or_interface (Or.inl hk)),
       fun hk => hne (getTypeUnderlying_of_kind_struct_or_interface (Or.inr hk))⟩
    refine ⟨fun hboth => (hu hboth.2).1 (hf hboth.1), hf, hu, fun hk => ⟨?_, ?_⟩⟩
    · exact getTypeFields_of_kind_ne_struct (by rw [hk]; decide)
    · exact getTypeUnderlying_of_kind_struct_or_interface (Or.inr hk)
  refine ⟨key, ?_⟩
  intro config packageName doc td h htd
  obtain ⟨_, _, pkg, _, _, _, _, _, _, hty, _, _⟩ := parsePackage_ok h
  rw [hty] at htd
  obtain ⟨t, _, _, hk, hfs, hun⟩ := parsePackage.mem_types htd
  rw [hk, hfs, hun]
  exact key t

/-- C2, an instance: the descriptor of the struct type `Widget` in the model of
the example package. -/
theorem typeDoc_fields_underlying_exclusive_witness :
    parsePackage exampleEnv exampleConfig "widget" = .ok exampleModel ∧
    exampleModel.Types.head? = some
      { Name := "Widget", Doc := "", Decl := "...", Kind := "struct",
        Fields :=
          [ { Name := "ID", Type_ := "string", Tag := "`json:\"id\"`", Doc := "ID is the key." },
            { Name := "Base", Type_ := "Base", Tag := "", Doc := "common part" },
            { Name := "", Type_ := "*Node", Tag := "", Doc := "" },
            { Name := "", Type_ := "io.Reader", Tag := "", Doc := "" },
            { Name := "X", Type_ := "int", Tag := "", Doc := "" },
            { Name := "Pos", Type_ := "...", Tag := "", Doc := "" } ],
        Methods := [{ Name := "Close", Doc := "Close releases the widget.",
                      Signature := "func Close(...)" }],
        Underlying := "" } ∧
    ∀ td, exampleModel.Types.head? = some td →
      ¬ (td.Fields ≠ [] ∧ td.Underlying ≠ "") :=
  ⟨rfl, by decide, fun td htd =>
    ((typeDoc_fields_underlying_exclusive exampleEnv).2 exampleConfig "widget" exampleModel td
      rfl (List.mem_of_mem_head? htd)).1⟩

theorem exists_structType_of_kind {t : DocType} (h : getTypeKind t = "struct") :
    ∃ n fs, firstSpec t = some (.typeSpec ⟨n, .structType fs⟩) := by
  rw [getTypeKind_eq_specKind] at h
  rcases hfs : firstSpec t with _ | ⟨_ | _ | ⟨n, ty⟩⟩ <;> rw [hfs] at h
  · simp [specKind] at h
  · simp [specKind] at h
  · simp [specKind] at h
  · cases ty <;> first | exact ⟨_, _, rfl⟩ | simp [specKind] at h

/-- C3: when every type of the index has a declaration whose first
specification is a type specification (`doc.New` reports declared types only,
each with its own declaration) and the printer prints the type expression of
each of them as a non-empty text (`format.Node` on an expression of a parsed
file), every type descriptor of a model returned by `parsePackage` whose kind
is neither "struct" nor "interface" has a non-empty Underlying and no
members. -/
theorem typeDoc_underlying_nonempty (env : Env) (config : Config) (packageName : String)
    (doc : PackageDoc) (td : TypeDoc)
    (hdecl : ∀ pkg, ∀ t ∈ (env.docNew pkg ("./" ++ packageName)).Types,
      ∃ n ty, firstSpec t = some (.typeSpec ⟨n, ty⟩))
    (hprint : ∀ pkg, ∀ t ∈ (env.docNew pkg ("./" ++ packageName)).Types,
      ∀ n ty, firstSpec t = some (.typeSpec ⟨n, ty⟩) →
        ∃ text, env.formatNode (.expr ty) = some text ∧ text ≠ "")
    (h : parsePackage env config packageName = .ok doc) (htd : td ∈ doc.Types)
    (hs : td.Kind ≠ "struct") (hi : td.Kind ≠ "interface") :
    td.Underlying ≠ "" ∧ td.Fields = [] := by
  obtain ⟨_, _, pkg, _, _, _, _, _, _, hty, _, _⟩ := parsePackage_ok h
  rw [hty] at htd
  obtain ⟨t, ht, _, hk, hfs, hun⟩ := parsePackage.mem_types htd
  rw [hk] at hs hi
  obtain ⟨n, ty, hspec⟩ := hdecl pkg t ht
  obtain ⟨text, hfmt, htext⟩ := hprint pkg t ht n ty hspec
  refine ⟨?_, by rw [hfs]; exact getTypeFields_of_kind_ne_struct hs⟩
  rw [hun, getTypeUnderlying_typeSpec hspec hs hi, hfmt]
  exact htext

/-- C3, an instance: the descriptor of the slice type `Names` of the package
`type ID string; type Names []string; type Widget struct { ID string }` has the
Underlying `[]string`. -/
theorem typeDoc_underlying_nonempty_witness :
    (∀ pkg, ∀ t ∈ (namedTypesEnv.docNew pkg ("./" ++ "widget")).Types,
      ∃ n ty, firstSpec t = some (.typeSpec ⟨n, ty⟩)) ∧
    (∀ pkg, ∀ t ∈ (namedTypesEnv.docNew pkg ("./" ++ "widget")).Types,
      ∀ n ty, firstSpec t = some (.typeSpec ⟨n, ty⟩) →
        ∃ text, namedTypesEnv.formatNode (.expr ty) = some text ∧ text ≠ "") ∧
    parsePackage namedTypesEnv exampleConfig "widget" = .ok namedTypesModel ∧
    namedTypesModel.Types.get? 1 = some
      { Name := "Names", Doc := "", Decl := "...", Kind := "array",
        Fields := [], Methods := [], Underlying := "[]string" } ∧
    (({ Name := "Names", Doc := "", Decl := "...", Kind := "array",
        Fields := [], Methods := [], Underlying := "[]string" } : TypeDoc).Underlying ≠ "") := by
  have hdecl : ∀ pkg, ∀ t ∈ (namedTypesEnv.docNew pkg ("./" ++ "widget")).Types,
      ∃ n ty, firstSpec t = some (.typeSpec ⟨n, ty⟩) := by
    intro pkg t ht
    have ht2 : t ∈ namedTypesIndex.Types := ht
    simp only [namedTypesIndex, List.mem_cons, List.mem_singleton, List.not_mem_nil,
      or_false] at ht2
    rcases ht2 with rfl | rfl | rfl <;> exact ⟨_, _, rfl⟩
  have hprint : ∀ pkg, ∀ t ∈ (namedTypesEnv.docNew pkg ("./" ++ "widget")).Types,
      ∀ n ty, firstSpec t = some (.typeSpec ⟨n, ty⟩) →
        ∃ text, namedTypesEnv.formatNode (.expr ty) = some text ∧ text ≠ "" := by
    intro pkg t ht n ty hspec
    have ht2 : t ∈ namedTypesIndex.Types := ht
    simp only [namedTypesIndex, List.mem_cons, List.mem_singleton, List.not_mem_nil,
      or_false] at ht2
    rcases ht2 with rfl | rfl | rfl <;>
      (simp only [firstSpec, declaredType, List.head?_cons, Option.some.injEq,
        Spec.typeSpec.injEq, TypeSpec.mk.injEq] at hspec
       obtain ⟨_, rfl⟩ := hspec
       exact ⟨_, rfl, by decide⟩)
  exact ⟨hdecl, hprint, rfl, by decide,
    (typeDoc_underlying_nonempty namedTypesEnv exampleConfig "widget" namedTypesModel
      { Name := "Names", Doc := "", Decl := "...", Kind := "array",
        Fields := [], Methods := [], Underlying := "[]string" }
      hdecl hprint rfl (by decide) (by decide) (by decide)).1⟩

/-- C4, as stated, fails: the descriptor of the struct type `Empty`, declared
as `struct{}`, has kind "struct" and no members. -/
theorem typeDoc_struct_fields_nonempty_counterexample :
    (parsePackage exampleEnv exampleConfig "widget" = .ok exampleModel ∧
      exampleModel.Types.get? 1 = some
        { Name := "Empty", Doc := "", Decl := "...", Kind := "struct",
          Fields := [], Methods := [], Underlying := "" }) ∧
    ¬ (∀ env config packageName doc td,
        parsePackage env config packageName = .ok doc → td ∈ doc.Types →
        td.Kind = "struct" → td.Fields ≠ [] ∧ td.Underlying = "") := by
  refine ⟨⟨rfl, by decide⟩, fun hall => ?_⟩
  have h := hall exampleEnv exampleConfig "widget" exampleModel
    { Name := "Empty", Doc := "", Decl := "...", Kind := "struct",
      Fields := [], Methods := [], Underlying := "" }
    rfl (by decide) rfl
  exact h.1 rfl

/-- C4, amended: a type descriptor of kind "struct" in a model returned by
`parsePackage` has an empty Underlying; it describes a type of the index whose
first specification is a struct type, and its Fields has as many descriptors
as that struct type has member entries, so Fields is non-empty exactly when
the struct type declares at least one member entry. -/
theorem typeDoc_struct_fields_underlying (env : Env) (config : Config) (packageName : String)
    (doc : PackageDoc) (td : TypeDoc)
    (h : parsePackage env config packageName = .ok doc) (htd : td ∈ doc.Types)
    (hk : td.Kind = "struct") :
    td.Underlying = "" ∧
    ∃ pkg t n fs, t ∈ (env.docNew pkg ("./" ++ packageName)).Types ∧
      td.Name = t.Name ∧ firstSpec t = some (.typeSpec ⟨n, .structType fs⟩) ∧
      td.Fields.length = fs.length ∧ (td.Fields ≠ [] ↔ fs ≠ []) := by
  obtain ⟨_, _, pkg, _, _, _, _, _, _, hty, _, _⟩ := parsePackage_ok h
  rw [hty] at htd
  obtain ⟨t, ht, hn, hkt, hfs, hun⟩ := parsePackage.mem_types htd
  rw [hkt] at hk
  obtain ⟨n, fs, hspec⟩ := exists_structType_of_kind hk
  refine ⟨by rw [hun]; exact getTypeUnderlying_of_kind_struct_or_interface (Or.inl hk),
    pkg, t, n, fs, ht, hn, hspec, ?_, ?_⟩
  · rw [hfs, getTypeFields_struct hspec, List.length_map]
  · rw [hfs, getTypeFields_struct hspec]
    simp

/-- C4, amended, an instance: the descriptor of the struct type `Empty` in the
model of the example package has an empty Underlying. -/
theorem typeDoc_struct_fields_underlying_witness :
    parsePackage exampleEnv exampleConfig "widget" = .ok exampleModel ∧
    exampleModel.Types.get? 1 = some
      { Name := "Empty", Doc := "", Decl := "...", Kind := "struct",
        Fields := [], Methods := [], Underlying := "" } ∧
    (({ Name := "Empty", Doc := "", Decl := "...", Kind := "struct",
        Fields := [], Methods := [], Underlying := "" } : TypeDoc).Underlying = "") :=
  ⟨rfl, by decide,
    (typeDoc_struct_fields_underlying exampleEnv exampleConfig "widget" exampleModel
      { Name := "Empty", Doc := "", Decl := "...", Kind := "struct",
        Fields := [], Methods := [], Underlying := "" }
      rfl (by decide) rfl).1⟩

/-! ## Members of a struct type -/

theorem trimSpace_getLast {s : String} {c : Char}
    (h : (trimSpace s).data.getLast? = some c) : isSpace c = false := by
  simp only [trimSpace, List.getLast?_reverse] at h
  have hnot := List.head?_dropWhile_not isSpace (s.data.dropWhile isSpace).reverse
  rw [h] at hnot
  exact hnot

theorem trimSpace_head {s : String} {c : Char}
    (h : (trimSpace s).data.head? = some c) : isSpace c = false := by
  simp only [trimSpace, List.head?_reverse] at h
  have hne : ((s.data.dropWhile isSpace).reverse.dropWhile isSpace) ≠ [] := by
    intro hnil
    rw [hnil] at h
    simp at h
  have hsuf := List.dropWhile_suffix (l := (s.data.dropWhile isSpace).reverse) isSpace
  have hlast := hsuf.getLast hne
  rw [List.getLast?_eq_getLast _ hne, Option.some.injEq] at h
  rw [h] at hlast
  have hlast2 : (s.data.dropWhile isSpace).reverse.getLast? = some c := by
    rw [List.getLast?_eq_getLast _ (hsuf.ne_nil hne), ← hlast]
  rw [List.getLast?_reverse] at hlast2
  have hnot := List.head?_dropWhile_not isSpace s.data
  rw [hlast2] at hnot
  exact hnot

theorem getTypeFields.entry_Name (env : Env) (field : Field) :
    (getTypeFields.entry env field).Name =
      match field.Names, field.Type_ with
      | name :: _, _ => name.Name
      | [], .ident ident => ident.Name
      | [], _ => "" := by
  obtain ⟨d, ns, ty, tag, c⟩ := field
  simp only [getTypeFields.entry, Field.Names, Field.Type_, Field.Tag, Field.Doc, Field.Comment]
  cases ns <;> cases ty <;> cases env.formatNode _ <;> cases tag <;> cases d <;> cases c <;> rfl

theorem getTypeFields.entry_Tag (env : Env) (field : Field) :
    (getTypeFields.entry env field).Tag =
      match field.Tag with
      | some tag => tag.Value
      | none => "" := by
  obtain ⟨d, ns, ty, tag, c⟩ := field
  simp only [getTypeFields.entry, Field.Names, Field.Type_, Field.Tag, Field.Doc, Field.Comment]
  cases ns <;> cases ty <;> cases env.formatNode _ <;> cases tag <;> cases d <;> cases c <;> rfl

theorem getTypeFields.entry_Doc (env : Env) (field : Field) :
    (getTypeFields.entry env field).Doc =
      match field.Doc, field.Comment with
      | some doc, _ => trimSpace (env.commentText doc)
      | none, some comment => trimSpace (env.commentText comment)
      | none, none => "" := by
  obtain ⟨d, ns, ty, tag, c⟩ := field
  simp only [getTypeFields.entry, Field.Names, Field.Type_, Field.Tag, Field.Doc, Field.Comment]
  cases ns <;> cases ty <;> cases env.formatNode _ <;> cases tag <;> cases d <;> cases c <;> rfl

theorem getTypeFields_get? {env : Env} {t : DocType} {n : Ident} {fs : List Field}
    (h : firstSpec t = some (.typeSpec ⟨n, .structType fs⟩)) (i : Nat) (hi : i < fs.length) :
    (getTypeFields env t).get? i = some (getTypeFields.entry env (fs.get ⟨i, hi⟩)) := by
  rw [getTypeFields_struct h]
  simp [List.getElem?_eq_getElem hi]

/-- C5: for a struct type, `getTypeFields` returns as many descriptors as the
field list of the struct type has member entries, and the descriptor at
position i is the one built from the entry at position i alone; member entries
of a nested struct type add no descriptor. -/
theorem getTypeFields_one_per_entry (env : Env) (t : DocType) (n : Ident) (fs : List Field)
    (h : firstSpec t = some (.typeSpec ⟨n, .structType fs⟩)) :
    (getTypeFields env t).length = fs.length ∧
    ∀ i (hi : i < fs.length),
      (getTypeFields env t).get? i = some (getTypeFields.entry env (fs.get ⟨i, hi⟩)) := by
  refine ⟨?_, fun i hi => getTypeFields_get? h i hi⟩
  rw [getTypeFields_struct h, List.length_map]

/-- C5, an instance: the struct type `Widget` of the examples has six member
entries, the last of them of a nested struct type with one member entry, and
six descriptors. -/
theorem getTypeFields_one_per_entry_witness :
    firstSpec (declaredType "Widget" widgetStruct) =
      some (.typeSpec ⟨⟨"Widget"⟩, widgetStruct⟩) ∧
    (getTypeFields exampleEnv (declaredType "Widget" widgetStruct)).length = 6 ∧
    (getTypeFields exampleEnv (declaredType "Widget" widgetStruct)).map (fun fd => fd.Name) =
      ["ID", "Base", "", "", "X", "Pos"] :=
  ⟨rfl,
    (getTypeFields_one_per_entry exampleEnv (declaredType "Widget" widgetStruct) ⟨"Widget"⟩ _
      rfl).1,
    by decide⟩

/-- C6, the behaviour of the code: the Name of an embedded member is the
identifier when the embedded type is a plain identifier, and is empty when the
embedded type is a pointer to a type or a package-qualified type; for
`struct { Base; *Node; io.Reader }` the names are `Base`, empty, empty, where
the bare identifiers are `Base`, `Node`, `Reader`. -/
theorem embedded_member_name (env : Env) (doc comment : Option CommentGroup)
    (tag : Option BasicLit) (ident sel : Ident) (x : Expr) :
    (getTypeFields.entry env (.mk doc [] (.ident ident) tag comment)).Name = ident.Name ∧
    (getTypeFields.entry env (.mk doc [] (.star x) tag comment)).Name = "" ∧
    (getTypeFields.entry env (.mk doc [] (.selector x sel) tag comment)).Name = "" ∧
    (getTypeFields exampleEnv (declaredType "T" (.structType
      [ .mk none [] (.ident ⟨"Base"⟩) none none,
        .mk none [] (.star (.ident ⟨"Node"⟩)) none none,
        .mk none [] (.selector (.ident ⟨"io"⟩) ⟨"Reader"⟩) none none ]))) =
      [ { Name := "Base", Type_ := "Base" },
        { Name := "", Type_ := "*Node" },
        { Name := "", Type_ := "io.Reader" } ] := by
  refine ⟨?_, ?_, ?_, by decide⟩ <;> rw [getTypeFields.entry_Name] <;> rfl

/-- C7: for every member entry of a struct type, the Doc of its descriptor is
the trimmed text of the leading doc comment when there is one (whether or not
there is a trailing comment), otherwise the trimmed text of the trailing
comment when there is one, otherwise empty; it neither begins nor ends with a
white space character. -/
theorem member_doc (env : Env) (t : DocType) (n : Ident) (fs : List Field)
    (h : firstSpec t = some (.typeSpec ⟨n, .structType fs⟩)) (i : Nat) (hi : i < fs.length) :
    ∃ fd, (getTypeFields env t).get? i = some fd ∧
      fd.Doc =
        (match (fs.get ⟨i, hi⟩).Doc, (fs.get ⟨i, hi⟩).Comment with
          | some doc, _ => trimSpace (env.commentText doc)
          | none, some comment => trimSpace (env.commentText comment)
          | none, none => "") ∧
      (∀ c, fd.Doc.data.head? = some c → isSpace c = false) ∧
      (∀ c, fd.Doc.data.getLast? = some c → isSpace c = false) := by
  refine ⟨_, getTypeFields_get? h i hi, getTypeFields.entry_Doc env _, ?_, ?_⟩ <;>
    rw [getTypeFields.entry_Doc] <;>
    intro c hc <;>
    split at hc <;>
    first
      | exact trimSpace_head hc
      | exact trimSpace_getLast hc
      | simp at hc

/-- C7, an instance: in the struct type `Widget` of the examples the member
`ID` has a doc comment and a trailing comment and `Base` a trailing comment
only. -/
theorem member_doc_witness :
    firstSpec (declaredType "Widget" widgetStruct) =
      some (.typeSpec ⟨⟨"Widget"⟩, widgetStruct⟩) ∧
    (getTypeFields exampleEnv (declaredType "Widget" widgetStruct)).map (fun fd => fd.Doc) =
      ["ID is the key.", "common part", "", "", "", ""] ∧
    ∃ fd, (getTypeFields exampleEnv (declaredType "Widget" widgetStruct)).get? 0 = some fd ∧
      fd.Doc = "ID is the key." := by
  refine ⟨rfl, by decide, ?_⟩
  obtain ⟨fd, hfd, hdoc, _⟩ :=
    member_doc exampleEnv (declaredType "Widget" widgetStruct) ⟨"Widget"⟩ _ rfl 0 (by decide)
  exact ⟨fd, hfd, hdoc.trans (by decide)⟩

/-- C8: for every member entry of a struct type, the Tag of its descriptor is
the text of the tag literal of the entry, unchanged, when the entry has a tag,
and is empty when it has none. -/
theorem member_tag (env : Env) (t : DocType) (n : Ident) (fs : List Field)
    (h : firstSpec t = some (.typeSpec ⟨n, .structType fs⟩)) (i : Nat) (hi : i < fs.length) :
    ∃ fd, (getTypeFields env t).get? i = some fd ∧
      fd.Tag =
        (match (fs.get ⟨i, hi⟩).Tag with
          | some tag => tag.Value
          | none => "") :=
  ⟨_, getTypeFields_get? h i hi, getTypeFields.entry_Tag env _⟩

/-- C8, an instance: in the struct type `Widget` of the examples only the
member `ID` has a tag, written with back quotes. -/
theorem member_tag_witness :
    firstSpec (declaredType "Widget" widgetStruct) =
      some (.typeSpec ⟨⟨"Widget"⟩, widgetStruct⟩) ∧
    (getTypeFields exampleEnv (declaredType "Widget" widgetStruct)).map (fun fd => fd.Tag) =
      ["`json:\"id\"`", "", "", "", "", ""] ∧
    ∃ fd, (getTypeFields exampleEnv (declaredType "Widget" widgetStruct)).get? 0 = some fd ∧
      fd.Tag = "`json:\"id\"`" := by
  refine ⟨rfl, by decide, ?_⟩
  obtain ⟨fd, hfd, htag⟩ :=
    member_tag exampleEnv (declaredType "Widget" widgetStruct) ⟨"Widget"⟩ _ rfl 0 (by decide)
  exact ⟨fd, hfd, htag.trans (by decide)⟩

/-! ## File filter and function list -/

theorem hasSuffix_iff (s suffix : String) :
    hasSuffix s suffix = true ↔ ∃ b : String, s = b ++ suffix := by
  simp only [hasSuffix, Bool.and_eq_true, decide_eq_true_eq]
  constructor
  · rintro ⟨_, hdrop⟩
    refine ⟨⟨s.data.take (s.data.length - suffix.data.length)⟩, ?_⟩
    apply String.ext
    rw [String.data_append]
    calc s.data
        = s.data.take (s.data.length - suffix.data.length) ++
            s.data.drop (s.data.length - suffix.data.length) :=
          (List.take_append_drop _ _).symm
      _ = s.data.take (s.data.length - suffix.data.length) ++ suffix.data := by rw [hdrop]
  · rintro ⟨b, rfl⟩
    simp [String.data_append]

theorem hasPrefix_iff (s pre : String) :
    hasPrefix s pre = true ↔ ∃ r : String, s = pre ++ r := by
  simp only [hasPrefix, Bool.and_eq_true, decide_eq_true_eq]
  constructor
  · rintro ⟨_, htake⟩
    refine ⟨⟨s.data.drop pre.data.length⟩, ?_⟩
    apply String.ext
    rw [String.data_append]
    calc s.data
        = s.data.take pre.data.length ++ s.data.drop pre.data.length :=
          (List.take_append_drop _ _).symm
      _ = pre.data ++ s.data.drop pre.data.length := by rw [htake]
  · rintro ⟨r, rfl⟩
    simp [String.data_append]

theorem parsePackage.functions_eq (env : Env) (funcs : List DocFunc) :
    parsePackage.functions env funcs =
      (funcs.filter (fun f => !(hasPrefix f.Name "Test" || hasPrefix f.Name "Benchmark"))).map
        (fun f => { Name := f.Name, Doc := f.Doc, Signature := getFunctionSignature env f }) := by
  unfold parsePackage.functions
  suffices hgen : ∀ init : List FunctionDoc,
      funcs.foldl (fun functions f =>
        if hasPrefix f.Name "Test" || hasPrefix f.Name "Benchmark" then functions
        else functions ++
          [{ Name := f.Name, Doc := f.Doc, Signature := getFunctionSignature env f }]) init =
      init ++ (funcs.filter
        (fun f => !(hasPrefix f.Name "Test" || hasPrefix f.Name "Benchmark"))).map
        (fun f => { Name := f.Name, Doc := f.Doc, Signature := getFunctionSignature env f }) by
    simpa using hgen []
  induction funcs with
  | nil => intro init; simp
  | cons f fs ih =>
    intro init
    rw [List.foldl_cons, ih]
    cases h1 : hasPrefix f.Name "Test" <;> cases h2 : hasPrefix f.Name "Benchmark" <;>
      simp [h1, h2, List.filter_cons]

/-- C9: the file filter of `parsePackage` accepts a name exactly when the name
ends with ".go" and does not end with "_test.go"; a name with the test suffix,
such as "widget_test.go", is rejected, and "widget.go" is accepted. -/
theorem filter_accepts_iff (name : String) :
    (parsePackage.filter name = true ↔
      hasSuffix name ".go" = true ∧ hasSuffix name "_test.go" = false) ∧
    (parsePackage.filter name = true ↔
      (∃ b : String, name = b ++ ".go") ∧ ¬ ∃ b : String, name = b ++ "_test.go") ∧
    parsePackage.filter (name ++ "_test.go") = false ∧
    parsePackage.filter "widget_test.go" = false ∧
    parsePackage.filter "widget.go" = true := by
  have h1 : parsePackage.filter name = true ↔
      hasSuffix name ".go" = true ∧ hasSuffix name "_test.go" = false := by
    unfold parsePackage.filter
    cases hasSuffix name "_test.go" <;> simp
  have h3 : parsePackage.filter (name ++ "_test.go") = false := by
    have hs : hasSuffix (name ++ "_test.go") "_test.go" = true :=
      (hasSuffix_iff _ _).2 ⟨name, rfl⟩
    simp [parsePackage.filter, hs]
  refine ⟨h1, ?_, h3, by decide, by decide⟩
  rw [h1, hasSuffix_iff, ← hasSuffix_iff name "_test.go"]
  simp

/-- C10: no function descriptor of a model returned by `parsePackage` has a
name that begins with "Test" or with "Benchmark". -/
theorem functions_exclude_tests (env : Env) (config : Config) (packageName : String)
    (doc : PackageDoc) (fd : FunctionDoc)
    (h : parsePackage env config packageName = .ok doc) (hfd : fd ∈ doc.Functions) :
    hasPrefix fd.Name "Test" = false ∧ hasPrefix fd.Name "Benchmark" = false ∧
    (¬ ∃ r : String, fd.Name = "Test" ++ r) ∧ (¬ ∃ r : String, fd.Name = "Benchmark" ++ r) := by
  obtain ⟨_, _, pkg, _, _, _, _, _, hfn, _, _, _⟩ := parsePackage_ok h
  rw [hfn, parsePackage.functions_eq, List.mem_map] at hfd
  obtain ⟨f, hf, rfl⟩ := hfd
  rw [List.mem_filter] at hf
  have hp := hf.2
  simp only [Bool.not_eq_true', Bool.or_eq_false_iff] at hp
  refine ⟨hp.1, hp.2, ?_, ?_⟩
  · rw [← hasPrefix_iff, hp.1]
    simp
  · rw [← hasPrefix_iff, hp.2]
    simp

/-- C10, an instance: the index of the example package lists `New`, `TestNew`,
`BenchmarkNew`, `Testify` and `Attest`; the model has `New` and `Attest`. -/
theorem functions_exclude_tests_witness :
    parsePackage exampleEnv exampleConfig "widget" = .ok exampleModel ∧
    exampleModel.Functions =
      [ { Name := "New", Doc := "New creates a Widget.", Signature := "func New()" },
        { Name := "Attest", Doc := "", Signature := "func Attest(...)" } ] ∧
    hasPrefix "New" "Test" = false ∧ hasPrefix "New" "Benchmark" = false := by
  have hw := functions_exclude_tests exampleEnv exampleConfig "widget" exampleModel
    { Name := "New", Doc := "New creates a Widget.", Signature := "func New()" }
    rfl (by decide)
  exact ⟨rfl, by decide, hw.1, hw.2.1⟩

/-! ## Location of the package directory -/

theorem parsePackage_eq_extract (env : Env) (config : Config) (packageName : String) :
    parsePackage env config packageName =
      if (match [env.join [config.RootDir, packageName], env.join [config.RootDir]].find?
            env.stat with
          | some path => path
          | none => "") = "" then
        .error ("package directory not found for " ++ packageName)
      else
        parsePackage.extract env config packageName
          (match [env.join [config.RootDir, packageName], env.join [config.RootDir]].find?
              env.stat with
            | some path => path
            | none => "") := rfl

theorem parsePackage_of_first {env : Env} {config : Config} {packageName : String}
    (hempty : env.stat "" = false)
    (h1 : env.stat (env.join [config.RootDir, packageName]) = true) :
    parsePackage env config packageName =
      parsePackage.extract env config packageName (env.join [config.RootDir, packageName]) := by
  have hne : env.join [config.RootDir, packageName] ≠ "" := by
    intro h
    rw [h, hempty] at h1
    exact Bool.noConfusion h1
  rw [parsePackage_eq_extract]
  simp [List.find?, h1, hne]

theorem parsePackage_of_second {env : Env} {config : Config} {packageName : String}
    (hempty : env.stat "" = false)
    (h1 : env.stat (env.join [config.RootDir, packageName]) = false)
    (h2 : env.stat (env.join [config.RootDir]) = true) :
    parsePackage env config packageName =
      parsePackage.extract env config packageName (env.join [config.RootDir]) := by
  have hne : env.join [config.RootDir] ≠ "" := by
    intro h
    rw [h, hempty] at h2
    exact Bool.noConfusion h2
  rw [parsePackage_eq_extract]
  simp [List.find?, h1, h2, hne]

theorem parsePackage_of_neither {env : Env} {config : Config} {packageName : String}
    (h1 : env.stat (env.join [config.RootDir, packageName]) = false)
    (h2 : env.stat (env.join [config.RootDir]) = false) :
    parsePackage env config packageName =
      .error ("package directory not found for " ++ packageName) := by
  rw [parsePackage_eq_extract]
  simp [List.find?, h1, h2]

theorem extract_ne_locate_error {env : Env} {config : Config} {packageName pkgPath : String}
    (hparse : ∀ p, env.parseDir p parsePackage.filter ≠
      .error ("package directory not found for " ++ packageName)) :
    parsePackage.extract env config packageName pkgPath ≠
      .error ("package directory not found for " ++ packageName) := by
  unfold parsePackage.extract
  split
  · rename_i err herr
    intro h
    injection h with h
    subst h
    exact hparse pkgPath herr
  · split
    · intro h
      injection h with h
      have hd := congrArg (fun s : String => s.data.head?) h
      simp [String.data_append] at hd
    · intro h
      exact Except.noConfusion h

/-! ## Constants and variables -/

theorem foldl_eq_append_flatMap {α β : Type} (g : List β → α → List β) (f : α → List β)
    (hg : ∀ acc x, g acc x = acc ++ f x) (l : List α) (init : List β) :
    l.foldl g init = init ++ l.flatMap f := by
  induction l generalizing init with
  | nil => simp
  | cons x xs ih => simp [hg, ih, List.flatMap_cons]

/-- The descriptors of one group: for every value specification and every
name of it, one descriptor. -/
theorem parsePackage.values_eq (env : Env) (groups : List DocValue) :
    parsePackage.values env groups =
      groups.flatMap (fun c => c.Decl.Specs.flatMap (fun spec =>
        match spec with
        | .valueSpec valueSpec => valueSpec.Names.map (fun name =>
            ({ Name := name.Name, Doc := c.Doc, Decl := getValueDecl env valueSpec } : ValueDoc))
        | _ => [])) := by
  unfold parsePackage.values
  have hspec : ∀ (c : DocValue) (acc : List ValueDoc) (spec : Spec),
      (match spec with
        | .valueSpec valueSpec =>
          valueSpec.Names.foldl (fun acc name =>
            acc ++ [({ Name := name.Name, Doc := c.Doc, Decl := getValueDecl env valueSpec } :
              ValueDoc)]) acc
        | _ => acc) =
      acc ++ (match spec with
        | .valueSpec valueSpec => valueSpec.Names.map (fun name =>
            ({ Name := name.Name, Doc := c.Doc, Decl := getValueDecl env valueSpec } : ValueDoc))
        | _ => []) := by
    intro c acc spec
    cases spec <;> simp [foldl_append_singleton]
  have hgroup := fun (acc : List ValueDoc) (c : DocValue) =>
    foldl_eq_append_flatMap _ _ (hspec c) c.Decl.Specs acc
  have hall := foldl_eq_append_flatMap _ _ hgroup groups []
  simpa using hall

theorem parsePackage.values_expand (env : Env) (groups : List DocValue) :
    ExpandsGroups groups (parsePackage.values env groups) := by
  refine ⟨groups.map (fun c => c.Decl.Specs.flatMap (fun spec =>
      match spec with
      | .valueSpec valueSpec => valueSpec.Names.map (fun name =>
          ({ Name := name.Name, Doc := c.Doc, Decl := getValueDecl env valueSpec } : ValueDoc))
      | _ => [])), ?_, ?_⟩
  · rw [parsePackage.values_eq]
    rfl
  · rw [List.forall₂_map_right_iff, List.forall₂_same]
    intro c _
    have hnames : (c.Decl.Specs.flatMap (fun spec =>
        match spec with
        | .valueSpec valueSpec => valueSpec.Names.map (fun name =>
            ({ Name := name.Name, Doc := c.Doc, Decl := getValueDecl env valueSpec } : ValueDoc))
        | _ => [])).map (fun vd => vd.Name) =
        (valueNames c.Decl).map (fun name => name.Name) := by
      unfold valueNames
      rw [List.map_flatMap, List.map_flatMap]
      congr 1
      funext spec
      cases spec <;> simp
    refine ⟨?_, hnames, ?_⟩
    · have hlen := congrArg List.length hnames
      simpa using hlen
    · intro vd hvd
      rw [List.mem_flatMap] at hvd
      obtain ⟨spec, _, hvd⟩ := hvd
      cases spec with
      | importSpec i => simp at hvd
      | typeSpec ts => simp at hvd
      | valueSpec vs =>
        simp only [List.mem_map] at hvd
        obtain ⟨name, _, rfl⟩ := hvd
        rfl

theorem parsePackage.values_named (env : Env) (groups : List DocValue) :
    NamedAsDeclared groups (parsePackage.values env groups) := by
  obtain ⟨parts, hout, hparts⟩ := parsePackage.values_expand env groups
  refine ⟨parts, hout, hparts.imp ?_⟩
  intro c part hc
  exact ⟨hc.2.1, by rw [hc.2.1]⟩

/-! ## Claims on the lists of the model -/

/-- The Functions of a model returned by `parsePackage` are the functions of
the list `Funcs` of the package entry of the index whose names begin with
neither "Test" nor "Benchmark", in the order of that list, each converted to
the descriptor with its Name, its Doc and its signature.  Functions that the
index files under a type are not in that list. -/
theorem functions_are_filtered_index (env : Env) (config : Config) (packageName : String)
    (doc : PackageDoc) (h : parsePackage env config packageName = .ok doc) :
    ∃ pkgPath pkgs pkg,
      env.parseDir pkgPath parsePackage.filter = .ok pkgs ∧
      pkgs.find? (fun p => !hasSuffix p.Name "_test") = some pkg ∧
      doc.Functions =
        ((env.docNew pkg ("./" ++ packageName)).Funcs.filter
          (fun f => !hasPrefix f.Name "Test" && !hasPrefix f.Name "Benchmark")).map
          (fun f => { Name := f.Name, Doc := f.Doc, Signature := getFunctionSignature env f }) ∧
      doc.Functions.map (fun fd => fd.Name) =
        ((env.docNew pkg ("./" ++ packageName)).Funcs.filter
          (fun f => !hasPrefix f.Name "Test" && !hasPrefix f.Name "Benchmark")).map
          (fun f => f.Name) ∧
      doc.Functions.map (fun fd => fd.Doc) =
        ((env.docNew pkg ("./" ++ packageName)).Funcs.filter
          (fun f => !hasPrefix f.Name "Test" && !hasPrefix f.Name "Benchmark")).map
          (fun f => f.Doc) := by
  obtain ⟨pkgPath, pkgs, pkg, hparse, hfind, _, _, _, hfn, _, _, _⟩ := parsePackage_ok h
  have hfn2 : doc.Functions =
      ((env.docNew pkg ("./" ++ packageName)).Funcs.filter
        (fun f => !hasPrefix f.Name "Test" && !hasPrefix f.Name "Benchmark")).map
        (fun f => { Name := f.Name, Doc := f.Doc, Signature := getFunctionSignature env f }) := by
    rw [hfn, parsePackage.functions_eq]
    simp [Bool.not_or]
  refine ⟨pkgPath, pkgs, pkg, hparse, hfind, hfn2, ?_, ?_⟩ <;>
    rw [hfn2, List.map_map] <;> rfl

/-- An instance: the package entry of the index of the example package lists
`New`, `TestNew`, `BenchmarkNew`, `Testify` and `Attest`, and the model has
`New` and `Attest`, in this order. -/
theorem functions_are_filtered_index_witness :
    parsePackage exampleEnv exampleConfig "widget" = .ok exampleModel ∧
    exampleModel.Functions.map (fun fd => fd.Name) = ["New", "Attest"] := by
  obtain ⟨_, _, pkg, _, _, _, hnames, _⟩ :=
    functions_are_filtered_index exampleEnv exampleConfig "widget" exampleModel rfl
  exact ⟨rfl, hnames.trans rfl⟩

/-- C11, the behaviour of the code: for the package
`type Widget struct { ID string }; func New() *Widget` (with a type `Color`
and its constants) the index reports the function `New` under the type
`Widget`, because it returns `*Widget`; `parsePackage` reads the function list
of the package entry and the methods of each type only, so the Functions of
the model are empty and no descriptor of the model, function or method, is
named `New`. -/
theorem constructor_missing_from_model :
    (∃ t ∈ associatedIndex.Types, t.Name = "Widget" ∧
      t.Funcs.map (fun f => f.Name) = ["New"]) ∧
    hasPrefix "New" "Test" = false ∧ hasPrefix "New" "Benchmark" = false ∧
    parsePackage associatedEnv exampleConfig "widget" = .ok associatedModel ∧
    associatedModel.Functions = [] ∧
    associatedModel.Types.map (fun td => (td.Name, td.Methods.map (fun md => md.Name))) =
      [("Color", []), ("Widget", [])] := by
  refine ⟨⟨_, List.mem_cons_of_mem _ (List.mem_cons_self _ _), rfl, rfl⟩,
    by decide, by decide, rfl, by decide, by decide⟩

/-- C12, as stated, fails: the index is built in the mode `doc.AllDecls`, and
the unexported function `helper` and the unexported type `node` that it
reports appear in the model. -/
theorem model_names_exported_counterexample :
    (parsePackage internalEnv exampleConfig "widget" = .ok internalModel ∧
      internalModel.Functions.map (fun fd => fd.Name) = ["Open", "helper"] ∧
      internalModel.Types.map (fun td => td.Name) = ["Store", "node"] ∧
      isExported "helper" = false ∧ isExported "node" = false) ∧
    ¬ (∀ env config packageName doc, parsePackage env config packageName = .ok doc →
        (∀ fd ∈ doc.Functions, isExported fd.Name = true) ∧
        (∀ td ∈ doc.Types, isExported td.Name = true)) := by
  refine ⟨⟨rfl, by decide, by decide, by decide, by decide⟩, fun hall => ?_⟩
  have h := (hall internalEnv exampleConfig "widget" internalModel rfl).1
    { Name := "helper", Doc := "", Signature := "func helper(...)" } (by decide)
  exact absurd h (by decide)

/-- C12, amended: every function descriptor of a model returned by
`parsePackage` names a function of the list `Funcs` of the package entry of
the index, and every type descriptor names a type of the index; whether a name
is exported is never tested: every type of the index, and every function of
that list whose name begins with neither "Test" nor "Benchmark", is named by
a descriptor, whatever the case of the first letter of its name.  (Nothing is
said about the functions that the index files under a type.) -/
theorem model_names_index_declarations (env : Env) (config : Config) (packageName : String)
    (doc : PackageDoc) (h : parsePackage env config packageName = .ok doc) :
    ∃ pkgPath pkgs pkg,
      env.parseDir pkgPath parsePackage.filter = .ok pkgs ∧
      pkgs.find? (fun p => !hasSuffix p.Name "_test") = some pkg ∧
      (∀ fd ∈ doc.Functions,
        ∃ f ∈ (env.docNew pkg ("./" ++ packageName)).Funcs, fd.Name = f.Name) ∧
      (∀ f ∈ (env.docNew pkg ("./" ++ packageName)).Funcs,
        hasPrefix f.Name "Test" = false → hasPrefix f.Name "Benchmark" = false →
        ∃ fd ∈ doc.Functions, fd.Name = f.Name) ∧
      doc.Types.map (fun td => td.Name) =
        (env.docNew pkg ("./" ++ packageName)).Types.map (fun t => t.Name) := by
  obtain ⟨pkgPath, pkgs, pkg, hparse, hfind, _, _, _, hfn, hty, _, _⟩ := parsePackage_ok h
  refine ⟨pkgPath, pkgs, pkg, hparse, hfind, ?_, ?_, ?_⟩
  · intro fd hfd
    rw [hfn, parsePackage.functions_eq, List.mem_map] at hfd
    obtain ⟨f, hf, rfl⟩ := hfd
    exact ⟨f, (List.mem_filter.1 hf).1, rfl⟩
  · intro f hf h1 h2
    refine ⟨{ Name := f.Name, Doc := f.Doc, Signature := getFunctionSignature env f }, ?_, rfl⟩
    rw [hfn, parsePackage.functions_eq, List.mem_map]
    exact ⟨f, List.mem_filter.2 ⟨hf, by simp [h1, h2]⟩, rfl⟩
  · rw [hty, parsePackage.types_eq, List.map_map]
    rfl

/-- C12, amended, an instance: the names of the type descriptors of the model
of `internalEnv` are the names of the types of its index. -/
theorem model_names_index_declarations_witness :
    parsePackage internalEnv exampleConfig "widget" = .ok internalModel ∧
    internalModel.Types.map (fun td => td.Name) = ["Store", "node"] := by
  obtain ⟨_, _, pkg, _, _, _, _, hty⟩ :=
    model_names_index_declarations internalEnv exampleConfig "widget" internalModel rfl
  exact ⟨rfl, hty.trans rfl⟩

/-- C13: the ImportPath of a model returned by `parsePackage` is the import path
configured for the repository, followed by "/", followed by the package name. -/
theorem importPath_eq (env : Env) (config : Config) (packageName : String)
    (doc : PackageDoc) (h : parsePackage env config packageName = .ok doc) :
    doc.ImportPath = config.ImportPath ++ "/" ++ packageName := by
  obtain ⟨_, _, _, _, _, _, hip, _⟩ := parsePackage_ok h
  exact hip

/-- C13, an instance: the import path of the example package. -/
theorem importPath_eq_witness :
    parsePackage exampleEnv exampleConfig "widget" = .ok exampleModel ∧
    exampleModel.ImportPath = "github.com/kolosys/widgets/widget" :=
  ⟨rfl, (importPath_eq exampleEnv exampleConfig "widget" exampleModel rfl).trans (by decide)⟩

/-- The Constants and the Variables of a model returned by `parsePackage`
consist of one part per group of the lists `Consts` and `Vars` of the package
entry of the index, in order; the part of a group has exactly as many
descriptors as the value specifications of the group declare names, one per
name in declaration order, and each has the doc text of the group as its Doc.
Groups that the index files under a type are not in those lists. -/
theorem values_one_per_name (env : Env) (config : Config) (packageName : String)
    (doc : PackageDoc) (h : parsePackage env config packageName = .ok doc) :
    ∃ pkgPath pkgs pkg,
      env.parseDir pkgPath parsePackage.filter = .ok pkgs ∧
      pkgs.find? (fun p => !hasSuffix p.Name "_test") = some pkg ∧
      ExpandsGroups (env.docNew pkg ("./" ++ packageName)).Consts doc.Constants ∧
      ExpandsGroups (env.docNew pkg ("./" ++ packageName)).Vars doc.Variables := by
  obtain ⟨pkgPath, pkgs, pkg, hparse, hfind, _, _, _, _, _, hc, hv⟩ := parsePackage_ok h
  refine ⟨pkgPath, pkgs, pkg, hparse, hfind, ?_, ?_⟩
  · rw [hc]
    exact parsePackage.values_expand env _
  · rw [hv]
    exact parsePackage.values_expand env _

/-- An instance: the group `A, B = 1, 2` with the doc text "Limits." of the
example package gives the two descriptors `A` and `B` with that Doc. -/
theorem values_one_per_name_witness :
    parsePackage exampleEnv exampleConfig "widget" = .ok exampleModel ∧
    exampleModel.Constants =
      [ { Name := "A", Doc := "Limits.", Decl := "..." },
        { Name := "B", Doc := "Limits.", Decl := "..." } ] ∧
    ExpandsGroups widgetIndex.Consts exampleModel.Constants := by
  obtain ⟨_, _, pkg, _, _, hc, _⟩ :=
    values_one_per_name exampleEnv exampleConfig "widget" exampleModel rfl
  exact ⟨rfl, by decide, hc⟩

/-- C14, the behaviour of the code: for the package
`type Color int; const ( Red Color = iota; Green )` the index reports the
constant group, which declares the two names `Red` and `Green`, under the type
`Color`; `parsePackage` reads the constant and variable lists of the package
entry only, so the group gets no descriptor: the Constants and the Variables of
the model are empty. -/
theorem typed_group_missing_from_model :
    (∃ t ∈ associatedIndex.Types, t.Name = "Color" ∧ t.Consts = [colorGroup]) ∧
    (valueNames colorGroup.Decl).map (fun name => name.Name) = ["Red", "Green"] ∧
    parsePackage associatedEnv exampleConfig "widget" = .ok associatedModel ∧
    associatedModel.Constants = [] ∧ associatedModel.Variables = [] := by
  refine ⟨⟨_, List.mem_cons_self _ _, rfl, rfl⟩, by decide, rfl, by decide, by decide⟩

/-- C15, as stated, fails: the constant group `const ( _ = iota; A; _; B )`
declares four names and gives four descriptors, two of them with the Name
`_`. -/
theorem value_names_distinct_counterexample :
    (parsePackage blankEnv exampleConfig "widget" = .ok blankModel ∧
      blankModel.Constants.map (fun vd => vd.Name) = ["_", "A", "_", "B"] ∧
      ¬ (blankModel.Constants.map (fun vd => vd.Name)).Nodup) ∧
    ¬ (∀ env c, ((parsePackage.values env [c]).map (fun vd => vd.Name)).Nodup) := by
  refine ⟨⟨rfl, by decide, by decide⟩, fun hall => ?_⟩
  have h := hall exampleEnv blankGroup
  exact absurd h (by decide)

/-- C15, amended: the Constants and the Variables of a model returned by
`parsePackage` consist of one part per group of the lists `Consts` and `Vars`
of the package entry of the index, in order; the Names of the part of such a
group are the names that the group declares, in declaration order, and are
pairwise distinct exactly when the declared names are.  (Nothing is said about
the groups that the index files under a type.) -/
theorem value_names_as_declared (env : Env) (config : Config) (packageName : String)
    (doc : PackageDoc) (h : parsePackage env config packageName = .ok doc) :
    ∃ pkgPath pkgs pkg,
      env.parseDir pkgPath parsePackage.filter = .ok pkgs ∧
      pkgs.find? (fun p => !hasSuffix p.Name "_test") = some pkg ∧
      NamedAsDeclared (env.docNew pkg ("./" ++ packageName)).Consts doc.Constants ∧
      NamedAsDeclared (env.docNew pkg ("./" ++ packageName)).Vars doc.Variables := by
  obtain ⟨pkgPath, pkgs, pkg, hparse, hfind, _, _, _, _, _, hc, hv⟩ := parsePackage_ok h
  refine ⟨pkgPath, pkgs, pkg, hparse, hfind, ?_, ?_⟩
  · rw [hc]
    exact parsePackage.values_named env _
  · rw [hv]
    exact parsePackage.values_named env _

/-- C15, amended, an instance: the names of the constants of the example
package are `A` and `B`, as declared. -/
theorem value_names_as_declared_witness :
    parsePackage exampleEnv exampleConfig "widget" = .ok exampleModel ∧
    exampleModel.Constants.map (fun vd => vd.Name) = ["A", "B"] ∧
    NamedAsDeclared widgetIndex.Consts exampleModel.Constants := by
  obtain ⟨_, _, pkg, _, _, hc, _⟩ :=
    value_names_as_declared exampleEnv exampleConfig "widget" exampleModel rfl
  exact ⟨rfl, by decide, hc⟩

/-! ## Claims on the location of the package directory -/

/-- C16: `parsePackage` probes the join of the root directory and the package
name first and the root directory second; it continues with the first when it
exists, with the second when only the second exists, and returns the error
"package directory not found" when neither exists.  When the parser itself
never returns that error text, `parsePackage` returns it exactly when neither
path exists.  (`os.Stat` fails on the empty path.) -/
theorem locate_first_existing (env : Env) (config : Config) (packageName : String)
    (hempty : env.stat "" = false) :
    (env.stat (env.join [config.RootDir, packageName]) = true →
      parsePackage env config packageName =
        parsePackage.extract env config packageName
          (env.join [config.RootDir, packageName])) ∧
    (env.stat (env.join [config.RootDir, packageName]) = false →
      env.stat (env.join [config.RootDir]) = true →
      parsePackage env config packageName =
        parsePackage.extract env config packageName (env.join [config.RootDir])) ∧
    (env.stat (env.join [config.RootDir, packageName]) = false →
      env.stat (env.join [config.RootDir]) = false →
      parsePackage env config packageName =
        .error ("package directory not found for " ++ packageName)) ∧
    ((∀ p, env.parseDir p parsePackage.filter ≠
        .error ("package directory not found for " ++ packageName)) →
      (parsePackage env config packageName =
          .error ("package directory not found for " ++ packageName) ↔
        env.stat (env.join [config.RootDir, packageName]) = false ∧
        env.stat (env.join [config.RootDir]) = false)) := by
  refine ⟨parsePackage_of_first hempty, parsePackage_of_second hempty,
    parsePackage_of_neither, fun hparse => ⟨fun herr => ?_, fun hn =>
      parsePackage_of_neither hn.1 hn.2⟩⟩
  cases h1 : env.stat (env.join [config.RootDir, packageName])
  · cases h2 : env.stat (env.join [config.RootDir])
    · exact ⟨rfl, rfl⟩
    · rw [parsePackage_of_second hempty h1 h2] at herr
      exact absurd herr (extract_ne_locate_error hparse)
  · rw [parsePackage_of_first hempty h1] at herr
    exact absurd herr (extract_ne_locate_error hparse)

/-- C16, an instance: in the example environment `src/widget` exists, and the
package `widget` is extracted from it. -/
theorem locate_first_existing_witness :
    exampleEnv.stat "" = false ∧
    exampleEnv.stat (exampleEnv.join [exampleConfig.RootDir, "widget"]) = true ∧
    parsePackage exampleEnv exampleConfig "widget" =
      parsePackage.extract exampleEnv exampleConfig "widget" "src/widget" :=
  ⟨by decide, by decide,
    (locate_first_existing exampleEnv exampleConfig "widget" (by decide)).1 (by decide)⟩

/-- C17, as stated, fails: when `src/missing` does not exist and the root
directory `src` does, `parsePackage` continues with the root directory and
returns a model. -/
theorem locate_error_counterexample :
    (rootOnlyEnv.stat (rootOnlyEnv.join [exampleConfig.RootDir, "missing"]) = false ∧
      parsePackage rootOnlyEnv exampleConfig "missing" = .ok rootOnlyModel ∧
      rootOnlyModel.Name = "widget" ∧
      rootOnlyModel.ImportPath = "github.com/kolosys/widgets/missing") ∧
    ¬ (∀ env config packageName,
        env.stat (env.join [config.RootDir, packageName]) = false →
        parsePackage env config packageName =
          .error ("package directory not found for " ++ packageName)) := by
  refine ⟨⟨by decide, rfl, by decide, by decide⟩, fun hall => ?_⟩
  have h := hall rootOnlyEnv exampleConfig "missing" (by decide)
  have hok : parsePackage rootOnlyEnv exampleConfig "missing" = .ok rootOnlyModel := rfl
  rw [hok] at h
  exact Except.noConfusion h

/-- C17, amended: when the join of the root directory and the package name
does not exist, `parsePackage` fails with the error "package directory not
found" if the root directory does not exist either, and continues with the
root directory as the package directory if the root directory exists; when
the parser itself never returns that error text, it returns the error exactly
when the root directory does not exist.  (`os.Stat` fails on the empty
path.) -/
theorem locate_error_or_root_fallback (env : Env) (config : Config) (packageName : String)
    (h1 : env.stat (env.join [config.RootDir, packageName]) = false) :
    (env.stat (env.join [config.RootDir]) = false →
      parsePackage env config packageName =
        .error ("package directory not found for " ++ packageName)) ∧
    (env.stat "" = false → env.stat (env.join [config.RootDir]) = true →
      parsePackage env config packageName =
        parsePackage.extract env config packageName (env.join [config.RootDir])) ∧
    (env.stat "" = false →
      (∀ p, env.parseDir p parsePackage.filter ≠
        .error ("package directory not found for " ++ packageName)) →
      (parsePackage env config packageName =
          .error ("package directory not found for " ++ packageName) ↔
        env.stat (env.join [config.RootDir]) = false)) := by
  refine ⟨fun h2 => parsePackage_of_neither h1 h2,
    fun hempty h2 => parsePackage_of_second hempty h1 h2,
    fun hempty hparse => ⟨fun herr => ?_, fun h2 => parsePackage_of_neither h1 h2⟩⟩
  cases h2 : env.stat (env.join [config.RootDir])
  · rfl
  · rw [parsePackage_of_second hempty h1 h2] at herr
    exact absurd herr (extract_ne_locate_error hparse)

/-- C17, amended, two instances: in the example environment neither
`src/missing` nor `src` exists and the error is returned; in the environment
in which only the root directory `src` exists, the package is extracted from
`src`. -/
theorem locate_error_or_root_fallback_witness :
    (exampleEnv.stat (exampleEnv.join [exampleConfig.RootDir, "missing"]) = false ∧
      exampleEnv.stat (exampleEnv.join [exampleConfig.RootDir]) = false ∧
      parsePackage exampleEnv exampleConfig "missing" =
        .error "package directory not found for missing") ∧
    (rootOnlyEnv.stat (rootOnlyEnv.join [exampleConfig.RootDir, "missing"]) = false ∧
      rootOnlyEnv.stat "" = false ∧
      rootOnlyEnv.stat (rootOnlyEnv.join [exampleConfig.RootDir]) = true ∧
      parsePackage rootOnlyEnv exampleConfig "missing" =
        parsePackage.extract rootOnlyEnv exampleConfig "missing" "src") :=
  ⟨⟨by decide, by decide,
      (locate_error_or_root_fallback exampleEnv exampleConfig "missing" (by decide)).1
        (by decide)⟩,
    ⟨by decide, by decide, by decide,
      (locate_error_or_root_fallback rootOnlyEnv exampleConfig "missing" (by decide)).2.1
        (by decide) (by decide)⟩⟩

/-! ## Claims on formatting failures and on determinism -/

theorem getTypeFields.entry_Type (env : Env) (field : Field) :
    (getTypeFields.entry env field).Type_ = (env.formatNode (.expr field.Type_)).getD "" := by
  obtain ⟨d, ns, ty, tag, c⟩ := field
  simp only [getTypeFields.entry, Field.Names, Field.Type_, Field.Tag, Field.Doc, Field.Comment]
  cases ns <;> cases ty <;> cases env.formatNode _ <;> cases tag <;> cases d <;> cases c <;> rfl

theorem getTypeFields_length (env : Env) (t : DocType) :
    (getTypeFields env t).length = (memberEntries t).length := by
  obtain ⟨name, doc, decl, methods⟩ := t
  cases decl with
  | none => rfl
  | some d =>
    obtain ⟨tok, specs⟩ := d
    cases specs with
    | nil => rfl
    | cons s rest =>
      cases s with
      | importSpec i => rfl
      | valueSpec v => rfl
      | typeSpec ts =>
        obtain ⟨n, ty⟩ := ts
        cases ty <;> first | rfl | simp [getTypeFields, memberEntries, firstSpec,
          foldl_append_singleton]

theorem parsePackage.values_names (env : Env) (groups : List DocValue) :
    (parsePackage.values env groups).map (fun vd => vd.Name) =
      groups.flatMap (fun c => (valueNames c.Decl).map (fun name => name.Name)) := by
  rw [parsePackage.values_eq, List.map_flatMap]
  congr 1
  funext c
  unfold valueNames
  rw [List.map_flatMap, List.map_flatMap]
  congr 1
  funext spec
  cases spec <;> simp

/-- C18, as stated, fails: when nothing can be re-printed, only the function
signature has the form of a name with an elision marker; the type declaration
degrades to `type Widget`, the type text of every member stays empty, and the
value declaration of `A, B = 1, 2` degrades to `A`. -/
theorem formatter_fallback_counterexample :
    (getFunctionSignature failingFormatEnv ⟨"New", "", some ⟨[], ⟨"New"⟩, [], []⟩⟩ =
        "func New(...)" ∧
      getTypeDecl failingFormatEnv (declaredType "Widget" widgetStruct) = "type Widget" ∧
      containsText "type Widget" "..." = false ∧
      (getTypeFields failingFormatEnv (declaredType "Widget" widgetStruct)).map
        (fun fd => fd.Type_) = ["", "", "", "", "", ""] ∧
      getValueDecl failingFormatEnv
        ⟨[⟨"A"⟩, ⟨"B"⟩], none, [.basicLit ⟨"INT", "1"⟩, .basicLit ⟨"INT", "2"⟩]⟩ = "A" ∧
      containsText "A" "..." = false) ∧
    ¬ (∀ (env : Env) (t : DocType),
        (∀ decl, t.Decl = some decl → env.formatNode (.genDecl decl) = none) →
        containsText (getTypeDecl env t) t.Name = true ∧
        containsText (getTypeDecl env t) "..." = true) := by
  refine ⟨⟨by decide, by decide, by decide, by decide, by decide, by decide⟩, fun hall => ?_⟩
  have h := (hall failingFormatEnv (declaredType "Widget" widgetStruct) (fun _ _ => rfl)).2
  exact absurd h (by decide)

/-- C18, amended: when re-printing fails, each helper degrades to its own
fallback: `getFunctionSignature` returns "func <name>(...)", `getTypeDecl`
returns "type <name>", the type text of a member stays empty, and
`getValueDecl` returns the first name of the specification, or the empty text
when the specification has no name. -/
theorem formatter_fallbacks (env : Env) :
    (∀ f : DocFunc,
      (∀ decl, f.Decl = some decl → env.formatNode (.funcDecl decl) = none) →
      getFunctionSignature env f = "func " ++ f.Name ++ "(...)") ∧
    (∀ t : DocType,
      (∀ decl, t.Decl = some decl → env.formatNode (.genDecl decl) = none) →
      getTypeDecl env t = "type " ++ t.Name) ∧
    (∀ field : Field, env.formatNode (.expr field.Type_) = none →
      (getTypeFields.entry env field).Type_ = "") ∧
    (∀ spec : ValueSpec, env.formatNode (.valueSpec spec) = none →
      getValueDecl env spec =
        match spec.Names with
        | name :: _ => name.Name
        | [] => "") := by
  refine ⟨?_, ?_, ?_, ?_⟩
  · intro f hf
    unfold getFunctionSignature
    cases hd : f.Decl with
    | none => rfl
    | some decl => simp [hf decl hd]
  · intro t ht
    unfold getTypeDecl
    cases hd : t.Decl with
    | none => rfl
    | some decl => simp [ht decl hd]
  · intro field hf
    rw [getTypeFields.entry_Type, hf]
    rfl
  · intro spec hs
    unfold getValueDecl
    rw [hs]

/-- C18, amended, an instance: the fallback of `getTypeDecl` for the type
`Widget` when nothing can be re-printed. -/
theorem formatter_fallbacks_witness :
    (∀ decl, (declaredType "Widget" widgetStruct).Decl = some decl →
      failingFormatEnv.formatNode (.genDecl decl) = none) ∧
    getTypeDecl failingFormatEnv (declaredType "Widget" widgetStruct) = "type Widget" :=
  ⟨fun _ _ => rfl,
    ((formatter_fallbacks failingFormatEnv).2.1 (declaredType "Widget" widgetStruct)
      (fun _ _ => rfl)).trans (by decide)⟩

/-- C19: when a package directory is located, the parser returns no error and
a package whose name does not end in `_test` is found, `parsePackage` returns
a model, whatever `format.Node` does; the model has a descriptor for every
function of the index whose name begins with neither "Test" nor "Benchmark",
for every type of the index, for every member entry and every method of each
type, and for every declared constant and variable name. -/
theorem parsePackage_succeeds_whatever_format (env : Env) (config : Config)
    (packageName pkgPath : String) (pkgs : List AstPackage) (pkg : AstPackage)
    (format : Node → Option String)
    (hloc : [env.join [config.RootDir, packageName], env.join [config.RootDir]].find?
      env.stat = some pkgPath)
    (hne : pkgPath ≠ "")
    (hparse : env.parseDir pkgPath parsePackage.filter = .ok pkgs)
    (hfind : pkgs.find? (fun p => !hasSuffix p.Name "_test") = some pkg) :
    ∃ doc, parsePackage { env with formatNode := format } config packageName = .ok doc ∧
      doc.Functions.map (fun fd => fd.Name) =
        ((env.docNew pkg ("./" ++ packageName)).Funcs.filter
          (fun f => !hasPrefix f.Name "Test" && !hasPrefix f.Name "Benchmark")).map
          (fun f => f.Name) ∧
      doc.Types.map (fun td => td.Name) =
        (env.docNew pkg ("./" ++ packageName)).Types.map (fun t => t.Name) ∧
      doc.Types.map (fun td => td.Fields.length) =
        (env.docNew pkg ("./" ++ packageName)).Types.map (fun t => (memberEntries t).length) ∧
      doc.Types.map (fun td => td.Methods.map (fun md => md.Name)) =
        (env.docNew pkg ("./" ++ packageName)).Types.map
          (fun t => t.Methods.map (fun m => m.Name)) ∧
      doc.Constants.map (fun vd => vd.Name) =
        (env.docNew pkg ("./" ++ packageName)).Consts.flatMap
          (fun c => (valueNames c.Decl).map (fun name => name.Name)) ∧
      doc.Variables.map (fun vd => vd.Name) =
        (env.docNew pkg ("./" ++ packageName)).Vars.flatMap
          (fun c => (valueNames c.Decl).map (fun name => name.Name)) := by
  have hok : parsePackage { env with formatNode := format } config packageName =
      parsePackage.extract { env with formatNode := format } config packageName pkgPath := by
    rw [parsePackage_eq_extract]
    simp only [hloc, hne, if_false]
  have hex : parsePackage.extract { env with formatNode := format } config packageName pkgPath =
      .ok
        { Name := (env.docNew pkg ("./" ++ packageName)).Name
          ImportPath := config.ImportPath ++ "/" ++ packageName
          Doc := (env.docNew pkg ("./" ++ packageName)).Doc
          Functions := parsePackage.functions { env with formatNode := format }
            (env.docNew pkg ("./" ++ packageName)).Funcs
          Types := parsePackage.types { env with formatNode := format }
            (env.docNew pkg ("./" ++ packageName)).Types
          Constants := parsePackage.values { env with formatNode := format }
            (env.docNew pkg ("./" ++ packageName)).Consts
          Variables := parsePackage.values { env with formatNode := format }
            (env.docNew pkg ("./" ++ packageName)).Vars } := by
    unfold parsePackage.extract
    simp only [hparse, hfind]
  refine ⟨_, hok.trans hex, ?_, ?_, ?_, ?_, ?_, ?_⟩
  · simp only [parsePackage.functions_eq, List.map_map]
    simp [Bool.not_or, Function.comp_def]
  · simp only [parsePackage.types_eq, List.map_map]
    rfl
  · simp only [parsePackage.types_eq, List.map_map]
    apply List.map_congr_left
    intro t _
    exact getTypeFields_length _ t
  · simp only [parsePackage.types_eq, List.map_map]
    apply List.map_congr_left
    intro t _
    simp [Function.comp_def]
  · exact parsePackage.values_names _ _
  · exact parsePackage.values_names _ _

/-- C19, an instance: in the example environment with a printer that always
fails, `parsePackage` returns a model with the same functions. -/
theorem parsePackage_succeeds_whatever_format_witness :
    [exampleEnv.join [exampleConfig.RootDir, "widget"],
      exampleEnv.join [exampleConfig.RootDir]].find? exampleEnv.stat = some "src/widget" ∧
    exampleEnv.parseDir "src/widget" parsePackage.filter = .ok [⟨"widget", ["widget.go"]⟩] ∧
    ∃ doc, parsePackage { exampleEnv with formatNode := fun _ => none } exampleConfig "widget" =
        .ok doc ∧
      doc.Functions.map (fun fd => fd.Name) = ["New", "Attest"] := by
  obtain ⟨doc, hdoc, hfn, _⟩ :=
    parsePackage_succeeds_whatever_format exampleEnv exampleConfig "widget" "src/widget"
      [⟨"widget", ["widget.go"]⟩] ⟨"widget", ["widget.go"]⟩ (fun _ => none)
      (by decide) (by decide) rfl rfl
  exact ⟨by decide, rfl, doc, hdoc, hfn.trans (by decide)⟩

/-- C20, the behaviour of the code: a directory with `widget.go` of the package
`widget` and `gen.go` of the package `main` gives two parsed packages, neither
with a name ending in `_test`; when the map of parsed packages is enumerated
with `widget` first the model is that of `widget`, and when it is enumerated
with `main` first the model is that of `main`. -/
theorem selection_depends_on_enumeration_order :
    List.Perm ([⟨"widget", ["widget.go"]⟩, ⟨"main", ["gen.go"]⟩] : List AstPackage)
      [⟨"main", ["gen.go"]⟩, ⟨"widget", ["widget.go"]⟩] ∧
    ∃ first second,
      parsePackage (twoPackagesEnv [⟨"widget", ["widget.go"]⟩, ⟨"main", ["gen.go"]⟩])
        exampleConfig "widget" = .ok first ∧
      parsePackage (twoPackagesEnv [⟨"main", ["gen.go"]⟩, ⟨"widget", ["widget.go"]⟩])
        exampleConfig "widget" = .ok second ∧
      first.Name = "widget" ∧ second.Name = "main" ∧
      first.Functions.map (fun fd => fd.Name) = ["New", "Attest"] ∧
      second.Functions.map (fun fd => fd.Name) = ["main"] ∧
      first ≠ second := by
  refine ⟨List.Perm.swap _ _ _, _, _, rfl, rfl, by decide, by decide, by decide, by decide,
    by decide⟩

/-! ## Selection of the package and the two failures after the parse step -/

theorem parsePackage_of_located {env : Env} {config : Config} {packageName pkgPath : String}
    (hloc : [env.join [config.RootDir, packageName], env.join [config.RootDir]].find?
      env.stat = some pkgPath)
    (hne : pkgPath ≠ "") :
    parsePackage env config packageName =
      parsePackage.extract env config packageName pkgPath := by
  rw [parsePackage_eq_extract]
  simp only [hloc, hne, if_false]

theorem parsePackage.extract_of_error {env : Env} {config : Config}
    {packageName pkgPath err : String}
    (hparse : env.parseDir pkgPath parsePackage.filter = .error err) :
    parsePackage.extract env config packageName pkgPath = .error err := by
  unfold parsePackage.extract
  simp only [hparse]

theorem parsePackage.extract_of_none {env : Env} {config : Config}
    {packageName pkgPath : String} {pkgs : List AstPackage}
    (hparse : env.parseDir pkgPath parsePackage.filter = .ok pkgs)
    (hfind : pkgs.find? (fun p => !hasSuffix p.Name "_test") = none) :
    parsePackage.extract env config packageName pkgPath =
      .error ("no package found in " ++ pkgPath) := by
  unfold parsePackage.extract
  simp only [hparse, hfind]

theorem parsePackage.extract_of_some {env : Env} {config : Config}
    {packageName pkgPath : String} {pkgs : List AstPackage} {pkg : AstPackage}
    (hparse : env.parseDir pkgPath parsePackage.filter = .ok pkgs)
    (hfind : pkgs.find? (fun p => !hasSuffix p.Name "_test") = some pkg) :
    parsePackage.extract env config packageName pkgPath =
      .ok (parsePackage.convert env config packageName pkg) := by
  unfold parsePackage.extract parsePackage.convert
  simp only [hparse, hfind]

theorem find?_first_nontest {before after : List AstPackage} {pkg : AstPackage}
    (hbefore : ∀ p ∈ before, hasSuffix p.Name "_test" = true)
    (hpkg : hasSuffix pkg.Name "_test" = false) :
    (before ++ pkg :: after).find? (fun p => !hasSuffix p.Name "_test") = some pkg := by
  induction before with
  | nil => simp [List.find?, hpkg]
  | cons b bs ih =>
    have hb : hasSuffix b.Name "_test" = true := hbefore b (List.mem_cons_self _ _)
    simp only [List.cons_append, List.find?, hb, Bool.not_true]
    exact ih (fun p hp => hbefore p (List.mem_cons_of_mem _ hp))

theorem find?_nontest_none {pkgs : List AstPackage}
    (hall : ∀ p ∈ pkgs, hasSuffix p.Name "_test" = true) :
    pkgs.find? (fun p => !hasSuffix p.Name "_test") = none := by
  rw [List.find?_eq_none]
  intro p hp
  simp [hall p hp]

theorem find?_nontest_some {pkgs : List AstPackage} {pkg : AstPackage}
    (hfind : pkgs.find? (fun p => !hasSuffix p.Name "_test") = some pkg) :
    ∃ before after, pkgs = before ++ pkg :: after ∧
      (∀ p ∈ before, hasSuffix p.Name "_test" = true) ∧
      hasSuffix pkg.Name "_test" = false := by
  induction pkgs with
  | nil => simp at hfind
  | cons b bs ih =>
    cases hb : hasSuffix b.Name "_test" with
    | false =>
      simp only [List.find?, hb, Bool.not_false, Option.some.injEq] at hfind
      subst hfind
      exact ⟨[], bs, rfl, by simp, hb⟩
    | true =>
      simp only [List.find?, hb, Bool.not_true] at hfind
      obtain ⟨before, after, hbs, hbefore, hpkg⟩ := ih hfind
      refine ⟨b :: before, after, by rw [hbs]; rfl, ?_, hpkg⟩
      intro p hp
      rcases List.mem_cons.1 hp with rfl | hp
      · exact hb
      · exact hbefore p hp

/-- C21: after a package directory is located and parsed without error,
`parsePackage` returns the model of the first enumerated package whose name
does not end in "_test", whatever packages come before (all with a name ending
in "_test") or after it; it fails with the error "no package found" when every
package name ends in "_test" or there is no package; a model it returns is
always that of such a first package, so never that of a package whose name ends
in "_test". -/
theorem selects_first_nontest_package (env : Env) (config : Config)
    (packageName pkgPath : String) (pkgs : List AstPackage)
    (hloc : [env.join [config.RootDir, packageName], env.join [config.RootDir]].find?
      env.stat = some pkgPath)
    (hne : pkgPath ≠ "")
    (hparse : env.parseDir pkgPath parsePackage.filter = .ok pkgs) :
    (∀ before pkg after, pkgs = before ++ pkg :: after →
      (∀ p ∈ before, hasSuffix p.Name "_test" = true) →
      hasSuffix pkg.Name "_test" = false →
      parsePackage env config packageName =
        .ok (parsePackage.convert env config packageName pkg)) ∧
    ((∀ p ∈ pkgs, hasSuffix p.Name "_test" = true) →
      parsePackage env config packageName = .error ("no package found in " ++ pkgPath)) ∧
    (pkgs = [] →
      parsePackage env config packageName = .error ("no package found in " ++ pkgPath)) ∧
    (∀ doc, parsePackage env config packageName = .ok doc →
      ∃ before pkg after, pkgs = before ++ pkg :: after ∧
        (∀ p ∈ before, hasSuffix p.Name "_test" = true) ∧
        hasSuffix pkg.Name "_test" = false ∧
        doc = parsePackage.convert env config packageName pkg) := by
  rw [parsePackage_of_located hloc hne]
  refine ⟨?_, ?_, ?_, ?_⟩
  · intro before pkg after hpkgs hbefore hpkg
    exact parsePackage.extract_of_some hparse (hpkgs ▸ find?_first_nontest hbefore hpkg)
  · intro hall
    exact parsePackage.extract_of_none hparse (find?_nontest_none hall)
  · intro hnil
    exact parsePackage.extract_of_none hparse (by rw [hnil]; rfl)
  · intro doc hdoc
    cases hfind : pkgs.find? (fun p => !hasSuffix p.Name "_test") with
    | none =>
      rw [parsePackage.extract_of_none hparse hfind] at hdoc
      exact Except.noConfusion hdoc
    | some pkg =>
      rw [parsePackage.extract_of_some hparse hfind] at hdoc
      injection hdoc with hdoc
      obtain ⟨before, after, hpkgs, hbefore, hpkg⟩ := find?_nontest_some hfind
      exact ⟨before, pkg, after, hpkgs, hbefore, hpkg, hdoc.symm⟩

/-- C21, an instance: when the packages are enumerated as `widget_test`,
`widget`, `main`, the model is that of `widget`. -/
theorem selects_first_nontest_package_witness :
    [(twoPackagesEnv [⟨"widget_test", ["x_test.go"]⟩, ⟨"widget", ["widget.go"]⟩,
        ⟨"main", ["gen.go"]⟩]).join [exampleConfig.RootDir, "widget"],
      (twoPackagesEnv [⟨"widget_test", ["x_test.go"]⟩, ⟨"widget", ["widget.go"]⟩,
        ⟨"main", ["gen.go"]⟩]).join [exampleConfig.RootDir]].find?
      (twoPackagesEnv [⟨"widget_test", ["x_test.go"]⟩, ⟨"widget", ["widget.go"]⟩,
        ⟨"main", ["gen.go"]⟩]).stat = some "src/widget" ∧
    hasSuffix "widget_test" "_test" = true ∧ hasSuffix "widget" "_test" = false ∧
    parsePackage
      (twoPackagesEnv [⟨"widget_test", ["x_test.go"]⟩, ⟨"widget", ["widget.go"]⟩,
        ⟨"main", ["gen.go"]⟩]) exampleConfig "widget" =
      .ok (parsePackage.convert
        (twoPackagesEnv [⟨"widget_test", ["x_test.go"]⟩, ⟨"widget", ["widget.go"]⟩,
          ⟨"main", ["gen.go"]⟩]) exampleConfig "widget" ⟨"widget", ["widget.go"]⟩) :=
  ⟨by decide, by decide, by decide,
    (selects_first_nontest_package
      (twoPackagesEnv [⟨"widget_test", ["x_test.go"]⟩, ⟨"widget", ["widget.go"]⟩,
        ⟨"main", ["gen.go"]⟩]) exampleConfig "widget" "src/widget"
      [⟨"widget_test", ["x_test.go"]⟩, ⟨"widget", ["widget.go"]⟩, ⟨"main", ["gen.go"]⟩]
      (by decide) (by decide) rfl).1
      [⟨"widget_test", ["x_test.go"]⟩] ⟨"widget", ["widget.go"]⟩ [⟨"main", ["gen.go"]⟩] rfl
      (by decide) (by decide)⟩

/-- C22, as stated, fails: for a directory without any eligible source file
the directory parser returns no error and no package, and `parsePackage` fails
with the error "no package found"; there is no error of the parse step that it
could return. -/
theorem zero_files_parse_error_counterexample :
    (∀ d ∈ ([ ⟨"README.md", false, .error "expected 'package', found '#'"⟩,
              ⟨"widget_test.go", false, .ok "widget"⟩,
              ⟨"internal", true, .error "is a directory"⟩ ] : List DirEntry),
      (d.IsDir || !hasSuffix d.Name ".go" || !parsePackage.filter d.Name) = true) ∧
    noSourceEnv.parseDir "src/widget" parsePackage.filter = .ok [] ∧
    parsePackage noSourceEnv exampleConfig "widget" =
      .error "no package found in src/widget" ∧
    ¬ ∃ err, noSourceEnv.parseDir "src/widget" parsePackage.filter = .error err ∧
      parsePackage noSourceEnv exampleConfig "widget" = .error err := by
  refine ⟨by decide, rfl, rfl, ?_⟩
  rintro ⟨err, herr, _⟩
  have hok : noSourceEnv.parseDir "src/widget" parsePackage.filter = .ok [] := rfl
  rw [hok] at herr
  exact Except.noConfusion herr

/-- C22, amended: after a package directory is located, `parsePackage` fails
with the error of the parse step, unchanged, exactly when the parse step
returns an error; when the parse step returns no error and every parsed
package has a name ending in "_test", or no package was parsed at all, it
fails with the error "no package found in <directory>", and it fails in no
other way.  The directory parser returns no error and no package for a
directory in which no entry is an eligible source file.  The two failures are
distinguishable: the parser never returns the text "no package found in
<directory>", and then that text is returned exactly when the parse step
succeeded without a non-test package, and an error of the parse step is
returned as a different value. -/
theorem parse_error_and_not_found (env : Env) (config : Config)
    (packageName pkgPath : String)
    (hloc : [env.join [config.RootDir, packageName], env.join [config.RootDir]].find?
      env.stat = some pkgPath)
    (hne : pkgPath ≠ "") :
    (∀ err, env.parseDir pkgPath parsePackage.filter = .error err →
      parsePackage env config packageName = .error err) ∧
    (∀ pkgs, env.parseDir pkgPath parsePackage.filter = .ok pkgs →
      (∀ p ∈ pkgs, hasSuffix p.Name "_test" = true) →
      parsePackage env config packageName = .error ("no package found in " ++ pkgPath)) ∧
    (env.parseDir pkgPath parsePackage.filter = .ok [] →
      parsePackage env config packageName = .error ("no package found in " ++ pkgPath)) ∧
    (∀ pkgs e, env.parseDir pkgPath parsePackage.filter = .ok pkgs →
      parsePackage env config packageName = .error e →
      e = "no package found in " ++ pkgPath ∧
        ∀ p ∈ pkgs, hasSuffix p.Name "_test" = true) ∧
    (∀ (join : List String → String) (path : String) (filter : String → Bool)
        (list : List DirEntry),
      (∀ d ∈ list, (d.IsDir || !hasSuffix d.Name ".go" || !filter d.Name) = true) →
      parseDirOf (.ok list) join path filter = .ok []) ∧
    ((∀ err, env.parseDir pkgPath parsePackage.filter = .error err →
        err ≠ "no package found in " ++ pkgPath) →
      (parsePackage env config packageName = .error ("no package found in " ++ pkgPath) ↔
        ∃ pkgs, env.parseDir pkgPath parsePackage.filter = .ok pkgs ∧
          ∀ p ∈ pkgs, hasSuffix p.Name "_test" = true) ∧
      (∀ err, env.parseDir pkgPath parsePackage.filter = .error err →
        parsePackage env config packageName = .error err ∧
        parsePackage env config packageName ≠
          .error ("no package found in " ++ pkgPath)) ∧
      (∀ e, parsePackage env config packageName = .error e →
        e ≠ "no package found in " ++ pkgPath →
        env.parseDir pkgPath parsePackage.filter = .error e)) := by
  rw [parsePackage_of_located hloc hne]
  refine ⟨fun err herr => parsePackage.extract_of_error herr, ?_, ?_, ?_, ?_, ?_⟩
  · intro pkgs hparse hall
    exact parsePackage.extract_of_none hparse (find?_nontest_none hall)
  · intro hparse
    exact parsePackage.extract_of_none hparse rfl
  · intro pkgs e hparse he
    cases hfind : pkgs.find? (fun p => !hasSuffix p.Name "_test") with
    | none =>
      rw [parsePackage.extract_of_none hparse hfind] at he
      injection he with he
      refine ⟨he.symm, ?_⟩
      intro p hp
      have hp2 := List.find?_eq_none.1 hfind p hp
      simpa using hp2
    | some pkg =>
      rw [parsePackage.extract_of_some hparse hfind] at he
      exact Except.noConfusion he
  · intro join path filter list hlist
    have hfold : ∀ acc : List AstPackage × Option String,
        list.foldl (fun (acc : List AstPackage × Option String) d =>
          if d.IsDir || !hasSuffix d.Name ".go" then acc
          else if !filter d.Name then acc
          else
            match d.Parsed with
            | .ok name => (addFile acc.1 name (join [path, d.Name]), acc.2)
            | .error err => (acc.1, if acc.2.isNone then some err else acc.2)) acc = acc := by
      induction list with
      | nil => intro acc; rfl
      | cons d ds ih =>
        intro acc
        have hd := hlist d (List.mem_cons_self _ _)
        rw [List.foldl_cons]
        have hstep : (if d.IsDir || !hasSuffix d.Name ".go" then acc
            else if !filter d.Name then acc
            else
              match d.Parsed with
              | .ok name => (addFile acc.1 name (join [path, d.Name]), acc.2)
              | .error err => (acc.1, if acc.2.isNone then some err else acc.2)) = acc := by
          by_cases h1 : (d.IsDir || !hasSuffix d.Name ".go") = true
          · rw [if_pos h1]
          · rw [if_neg h1]
            have h2 : (!filter d.Name) = true := by
              simp only [Bool.or_eq_true] at hd h1
              rcases hd with hd | hd
              · exact absurd hd h1
              · exact hd
            rw [if_pos h2]
        rw [hstep]
        exact ih (fun d' hd' => hlist d' (List.mem_cons_of_mem _ hd')) acc
    unfold parseDirOf
    simp only [hfold]
  · intro hdist
    have hcases : ∀ e, parsePackage.extract env config packageName pkgPath = .error e →
        (env.parseDir pkgPath parsePackage.filter = .error e) ∨
        (e = "no package found in " ++ pkgPath ∧
          ∃ pkgs, env.parseDir pkgPath parsePackage.filter = .ok pkgs ∧
            ∀ p ∈ pkgs, hasSuffix p.Name "_test" = true) := by
      intro e he
      cases hp : env.parseDir pkgPath parsePackage.filter with
      | error err =>
        rw [parsePackage.extract_of_error hp] at he
        injection he with he
        exact Or.inl (by rw [he])
      | ok pkgs =>
        cases hfind : pkgs.find? (fun p => !hasSuffix p.Name "_test") with
        | none =>
          rw [parsePackage.extract_of_none hp hfind] at he
          injection he with he
          refine Or.inr ⟨he.symm, pkgs, rfl, ?_⟩
          intro p hpm
          have hp2 := List.find?_eq_none.1 hfind p hpm
          simpa using hp2
        | some pkg =>
          rw [parsePackage.extract_of_some hp hfind] at he
          exact Except.noConfusion he
    refine ⟨⟨fun he => ?_, fun hex => ?_⟩, fun err herr => ⟨?_, ?_⟩, fun e he hne2 => ?_⟩
    · rcases hcases _ he with hperr | ⟨_, hex⟩
      · exact absurd rfl (hdist _ hperr)
      · exact hex
    · obtain ⟨pkgs, hparse, hall⟩ := hex
      exact parsePackage.extract_of_none hparse (find?_nontest_none hall)
    · exact parsePackage.extract_of_error herr
    · rw [parsePackage.extract_of_error herr]
      intro h
      injection h with h
      exact hdist err herr h
    · rcases hcases e he with hperr | ⟨heq, _⟩
      · exact hperr
      · exact absurd heq hne2

/-- C22, amended, two instances: when the only eligible file does not parse,
`parsePackage` fails with the error of the parser; when the directory has no
eligible file, the parser returns no error and `parsePackage` fails with the
error "no package found". -/
theorem parse_error_and_not_found_witness :
    ([brokenSourceEnv.join [exampleConfig.RootDir, "widget"],
        brokenSourceEnv.join [exampleConfig.RootDir]].find? brokenSourceEnv.stat =
        some "src/widget" ∧
      brokenSourceEnv.parseDir "src/widget" parsePackage.filter =
        .error "src/widget/widget.go:1:1: expected 'package'" ∧
      parsePackage brokenSourceEnv exampleConfig "widget" =
        .error "src/widget/widget.go:1:1: expected 'package'") ∧
    ([noSourceEnv.join [exampleConfig.RootDir, "widget"],
        noSourceEnv.join [exampleConfig.RootDir]].find? noSourceEnv.stat =
        some "src/widget" ∧
      (∀ err, noSourceEnv.parseDir "src/widget" parsePackage.filter = .error err →
        err ≠ "no package found in " ++ "src/widget") ∧
      noSourceEnv.parseDir "src/widget" parsePackage.filter = .ok [] ∧
      parsePackage noSourceEnv exampleConfig "widget" =
        .error ("no package found in " ++ "src/widget")) := by
  have hdist : ∀ err, noSourceEnv.parseDir "src/widget" parsePackage.filter = .error err →
      err ≠ "no package found in " ++ "src/widget" := by
    intro err herr
    have hok : noSourceEnv.parseDir "src/widget" parsePackage.filter = .ok [] := rfl
    rw [hok] at herr
    exact Except.noConfusion herr
  exact ⟨⟨by decide, rfl,
      (parse_error_and_not_found brokenSourceEnv exampleConfig "widget" "src/widget"
        (by decide) (by decide)).1 _ rfl⟩,
    ⟨by decide, hdist, rfl,
      ((parse_error_and_not_found noSourceEnv exampleConfig "widget" "src/widget"
        (by decide) (by decide)).2.2.2.2.2 hdist).1.2 ⟨[], rfl, by simp⟩⟩⟩

/-! ## The loop of `main` and `GeneratePackageDocs` -/

theorem main.loop_state {σ : Type} (gen : String → σ → Option String × σ) (verbose : Bool)
    (packages : List PackageConfig) (st : σ × List String) :
    (main.loop gen verbose packages st).1 =
      packages.foldl (fun w pkg => (gen pkg.Name w).2) st.1 := by
  unfold main.loop
  induction packages generalizing st with
  | nil => rfl
  | cons pkg rest ih =>
    rw [List.foldl_cons, List.foldl_cons, ih]
    congr 1
    rcases hgen : gen pkg.Name st.1 with ⟨_ | err, w⟩ <;> simp [hgen]

theorem recordingGenerator_calls (fails : String → Bool) (packages : List PackageConfig)
    (calls : List String) :
    packages.foldl (fun w pkg => (recordingGenerator fails pkg.Name w).2) calls =
      calls ++ packages.map (fun pkg => pkg.Name) := by
  induction packages generalizing calls with
  | nil => simp
  | cons pkg rest ih =>
    rw [List.foldl_cons, ih]
    simp [recordingGenerator]

/-- C23: the loop of `main` threads the state through one call of the
generator for every configured package, in list order, whatever errors the
calls return; a generator that records its calls and fails for any set of
package names has recorded, at the end, exactly the configured names in list
order; the same holds with `GeneratePackageDocs` as the generator. -/
theorem main_loop_visits_every_package {σ : Type} (gen : String → σ → Option String × σ)
    (verbose : Bool) (packages : List PackageConfig) (st : σ × List String) :
    (main.loop gen verbose packages st).1 =
      packages.foldl (fun w pkg => (gen pkg.Name w).2) st.1 ∧
    (∀ (fails : String → Bool) (calls out : List String),
      (main.loop (recordingGenerator fails) verbose packages (calls, out)).1 =
        calls ++ packages.map (fun pkg => pkg.Name)) ∧
    (∀ (env : Env) (eff : Effects σ) (config : Config),
      (main.run env eff config st).1 =
        config.Packages.foldl
          (fun w pkg => (GeneratePackageDocs env eff config pkg.Name w).2) st.1) := by
  refine ⟨main.loop_state gen verbose packages st, ?_, ?_⟩
  · intro fails calls out
    rw [main.loop_state]
    exact recordingGenerator_calls fails packages calls
  · intro env eff config
    exact main.loop_state _ _ _ _

/-- C28: when `parsePackage` fails, `GeneratePackageDocs` returns the error
"failed to parse package: " followed by the text of the parse failure, and the
state of the file system is the one it started from, whatever the file system
operations would do. -/
theorem generate_fails_without_effects {σ : Type} (env : Env) (eff : Effects σ)
    (config : Config) (packageName err : String) (w : σ)
    (h : parsePackage env config packageName = .error err) :
    GeneratePackageDocs env eff config packageName w =
      (some ("failed to parse package: " ++ err), w) := by
  unfold GeneratePackageDocs
  rw [h]

/-- C28, an instance: for the package `missing` of the example environment no
operation on the file system is logged. -/
theorem generate_fails_without_effects_witness :
    parsePackage exampleEnv exampleConfig "missing" =
      .error "package directory not found for missing" ∧
    GeneratePackageDocs exampleEnv loggingEffects exampleConfig "missing" [] =
      (some "failed to parse package: package directory not found for missing", []) :=
  ⟨rfl, generate_fails_without_effects exampleEnv loggingEffects exampleConfig "missing"
    "package directory not found for missing" [] rfl⟩

/-! ## Types with their methods, the second copy, members with several names, `truncate` -/

/-- C24: the Types of a model returned by `parsePackage` are the types of the
index, one descriptor per type and in the order of the index; the descriptor
of a type has its Name and Doc, and its Methods are the methods of the type,
one descriptor per method, in order, each with the Name and the Doc of the
method, none left out. -/
theorem types_with_all_methods (env : Env) (config : Config) (packageName : String)
    (doc : PackageDoc) (h : parsePackage env config packageName = .ok doc) :
    ∃ pkgPath pkgs pkg,
      env.parseDir pkgPath parsePackage.filter = .ok pkgs ∧
      pkgs.find? (fun p => !hasSuffix p.Name "_test") = some pkg ∧
      doc.Types.length = (env.docNew pkg ("./" ++ packageName)).Types.length ∧
      List.Forall₂ (fun t td =>
        td.Name = t.Name ∧ td.Doc = t.Doc ∧
        td.Methods.length = t.Methods.length ∧
        td.Methods.map (fun md => md.Name) = t.Methods.map (fun m => m.Name) ∧
        td.Methods.map (fun md => md.Doc) = t.Methods.map (fun m => m.Doc) ∧
        td.Methods = t.Methods.map (fun m =>
          { Name := m.Name, Doc := m.Doc, Signature := getFunctionSignature env m }))
        (env.docNew pkg ("./" ++ packageName)).Types doc.Types := by
  obtain ⟨pkgPath, pkgs, pkg, hparse, hfind, _, _, _, _, hty, _, _⟩ := parsePackage_ok h
  refine ⟨pkgPath, pkgs, pkg, hparse, hfind, ?_, ?_⟩
  · rw [hty, parsePackage.types_eq, List.length_map]
  · rw [hty, parsePackage.types_eq, List.forall₂_map_right_iff, List.forall₂_same]
    intro t _
    refine ⟨rfl, rfl, ?_, ?_, ?_, rfl⟩
    · simp
    · simp [Function.comp_def]
    · simp [Function.comp_def]

/-- C24, an instance: the type `Widget` of the example package has the one
method `Close`, and so has its descriptor. -/
theorem types_with_all_methods_witness :
    parsePackage exampleEnv exampleConfig "widget" = .ok exampleModel ∧
    exampleModel.Types.length = 6 ∧
    exampleModel.Types.map (fun td => td.Methods.map (fun md => md.Name)) =
      [["Close"], [], [], [], [], []] := by
  obtain ⟨_, _, pkg, _, _, hlen, _⟩ :=
    types_with_all_methods exampleEnv exampleConfig "widget" exampleModel rfl
  exact ⟨rfl, hlen.trans rfl, by decide⟩

/-- C25: the extraction code of `src/shared/scripts/generate-docs.go` and that
of `src/docgen/main.go` compute the same: `parsePackage` returns the same model
or the same error, and each helper returns the same value. -/
theorem shared_extraction_agrees (env : Env) (config : Config) (packageName : String) :
    Shared.parsePackage env config packageName = parsePackage env config packageName ∧
    (∀ f, Shared.getFunctionSignature env f = getFunctionSignature env f) ∧
    (∀ t, Shared.getTypeDecl env t = getTypeDecl env t) ∧
    (∀ t, Shared.getTypeKind t = getTypeKind t) ∧
    (∀ t, Shared.getTypeFields env t = getTypeFields env t) ∧
    (∀ t, Shared.getTypeUnderlying env t = getTypeUnderlying env t) ∧
    (∀ spec, Shared.getValueDecl env spec = getValueDecl env spec) ∧
    (∀ name, Shared.parsePackage.filter name = parsePackage.filter name) :=
  ⟨rfl, fun _ => rfl, fun _ => rfl, fun _ => rfl, fun _ => rfl, fun _ => rfl, fun _ => rfl,
    fun _ => rfl⟩

/-- C26, as stated, fails: in `struct { A, _ int; _ string }` the first member
entry declares the names `A` and `_`; it gives the one descriptor `A`, and the
other name `_` is the Name of the descriptor of the second entry. -/
theorem other_names_absent_counterexample :
    getTypeFields exampleEnv (declaredType "Padded" paddedStruct) =
      [ { Name := "A", Type_ := "int" }, { Name := "_", Type_ := "string" } ] ∧
    ¬ (∀ (env : Env) (t : DocType) (n : Ident) (fs : List Field) (field : Field)
        (first : Ident) (others : List Ident),
        firstSpec t = some (.typeSpec ⟨n, .structType fs⟩) → field ∈ fs →
        field.Names = first :: others →
        ∀ other ∈ others, ∀ fd ∈ getTypeFields env t, fd.Name ≠ other.Name) := by
  refine ⟨by decide, fun hall => ?_⟩
  have h := hall exampleEnv (declaredType "Padded" paddedStruct) ⟨"Padded"⟩
    [ .mk none [⟨"A"⟩, ⟨"_"⟩] (.ident ⟨"int"⟩) none none,
      .mk none [⟨"_"⟩] (.ident ⟨"string"⟩) none none ]
    (.mk none [⟨"A"⟩, ⟨"_"⟩] (.ident ⟨"int"⟩) none none) ⟨"A"⟩ [⟨"_"⟩]
    rfl (List.mem_cons_self _ _) rfl ⟨"_"⟩ (List.mem_cons_self _ _)
    { Name := "_", Type_ := "string" } (by decide)
  exact h rfl

/-- C26, amended: for a member entry of a struct type that declares a first
name and further names, `getTypeFields` gives the one descriptor at the
position of the entry, with the first declared name as its Name; the Names of
the descriptors of the struct are the names under which its entries are listed
(first declared name, or embedded identifier), so a further name is the Name
of a descriptor exactly when it is the name under which some entry of the
struct is listed. -/
theorem multi_name_entry_first_name (env : Env) (t : DocType) (n : Ident) (fs : List Field)
    (i : Nat) (hi : i < fs.length) (first : Ident) (others : List Ident)
    (h : firstSpec t = some (.typeSpec ⟨n, .structType fs⟩))
    (hnames : (fs.get ⟨i, hi⟩).Names = first :: others) :
    (getTypeFields env t).length = fs.length ∧
    (∃ fd, (getTypeFields env t).get? i = some fd ∧ fd.Name = first.Name) ∧
    (getTypeFields env t).map (fun fd => fd.Name) = fs.map memberName ∧
    (∀ other ∈ others,
      (∃ fd ∈ getTypeFields env t, fd.Name = other.Name) ↔
        ∃ field ∈ fs, memberName field = other.Name) := by
  have hmap : (getTypeFields env t).map (fun fd => fd.Name) = fs.map memberName := by
    rw [getTypeFields_struct h, List.map_map]
    apply List.map_congr_left
    intro field _
    exact getTypeFields.entry_Name env field
  refine ⟨?_, ?_, hmap, ?_⟩
  · rw [getTypeFields_struct h, List.length_map]
  · refine ⟨_, getTypeFields_get? h i hi, ?_⟩
    rw [getTypeFields.entry_Name, hnames]
  · intro other _
    have hmem : other.Name ∈ (getTypeFields env t).map (fun fd => fd.Name) ↔
        other.Name ∈ fs.map memberName := by rw [hmap]
    simpa [List.mem_map] using hmem

/-- C26, amended, an instance: the entry `X, Y int` of the struct type `Widget`
of the examples gives the one descriptor `X`. -/
theorem multi_name_entry_first_name_witness :
    firstSpec (declaredType "Widget" widgetStruct) =
      some (.typeSpec ⟨⟨"Widget"⟩, widgetStruct⟩) ∧
    (getTypeFields exampleEnv (declaredType "Widget" widgetStruct)).map (fun fd => fd.Name) =
      ["ID", "Base", "", "", "X", "Pos"] ∧
    ∃ fd, (getTypeFields exampleEnv (declaredType "Widget" widgetStruct)).get? 4 = some fd ∧
      fd.Name = "X" := by
  obtain ⟨_, hfd, _, _⟩ :=
    multi_name_entry_first_name exampleEnv (declaredType "Widget" widgetStruct) ⟨"Widget"⟩ _
      4 (by decide) ⟨"X"⟩ [⟨"Y"⟩] rfl rfl
  exact ⟨rfl, by decide, hfd⟩

/-- C27: `truncate` returns a string of at most 100 bytes unchanged and
otherwise its first 97 bytes followed by "..."; its result has at most 100
bytes, and truncating twice is truncating once. -/
theorem truncate_spec (s : List UInt8) :
    (s.length ≤ 100 → truncate s = s) ∧
    (100 < s.length → truncate s = s.take 97 ++ [46, 46, 46]) ∧
    (truncate s).length ≤ 100 ∧
    truncate (truncate s) = truncate s := by
  have hshort : ∀ r : List UInt8, r.length ≤ 100 → truncate r = r := by
    intro r hr
    unfold truncate
    rw [if_neg (by omega)]
  have hlong : 100 < s.length → truncate s = s.take 97 ++ [46, 46, 46] := by
    intro hs
    unfold truncate
    rw [if_pos hs]
  have hlen : (truncate s).length ≤ 100 := by
    by_cases hs : 100 < s.length
    · rw [hlong hs]
      simp
    · rw [hshort s (by omega)]
      omega
  exact ⟨hshort s, hlong, hlen, hshort _ hlen⟩

/-- C27, an instance: a string of 101 bytes `a` is cut to 97 bytes `a` and
three dots. -/
theorem truncate_spec_witness :
    100 < (List.replicate 101 (97 : UInt8)).length ∧
    truncate (List.replicate 101 97) = List.replicate 97 97 ++ [46, 46, 46] :=
  ⟨by decide, ((truncate_spec (List.replicate 101 97)).2.1 (by decide)).trans (by decide)⟩

end Docgen
